import Mathlib

/-!
Verification development for the data-weaver normalization / insight pipeline.

Shallow embedding of `src/DataNormalizer.js` and `src/InsightEngine.js`.
JavaScript numbers are modelled as rationals (`ℚ`); the only irrational
operation in the source, `Math.sqrt`, occurs inside comparisons and final
roundings, which are embedded as computable rational tests (squaring) and a
computable integer square root.  Bridge lemmas relate each such embedded test
to its real-number (`Real.sqrt`) meaning, so the rational definitions are
provably faithful to the source's real-arithmetic semantics.

External, display-only library calls (`toLocaleString`, `toLocaleDateString`,
number-to-string conversion) are modelled as explicit function parameters:
no claim depends on their output.
-/

namespace DataWeaver

/-! ## Numeric utilities

`Math.round(x)` in JavaScript is `⌊x + 1/2⌋` (round half towards +∞). -/

/-- JavaScript `Math.round`. -/
def jsRound (x : ℚ) : ℤ := ⌊x + 1/2⌋

/-- Fuel-driven binary search for the integer square root.
Invariant: `lo*lo ≤ n < hi*hi`. -/
def isqrtGo (n : ℕ) (fuel lo hi : ℕ) : ℕ :=
  if h : fuel = 0 then lo
  else if hi ≤ lo + 1 then lo
  else
    isqrtGo n (fuel - 1)
      (if (lo + hi) / 2 * ((lo + hi) / 2) ≤ n then (lo + hi) / 2 else lo)
      (if (lo + hi) / 2 * ((lo + hi) / 2) ≤ n then hi else (lo + hi) / 2)
termination_by fuel
decreasing_by
  exact Nat.sub_lt (Nat.pos_of_ne_zero h) Nat.one_pos

/-- Integer square root (largest `r` with `r*r ≤ n`), kernel-friendly. -/
def isqrt (n : ℕ) : ℕ := isqrtGo n (n + 1) 0 (n + 1)

/-- `⌊Real.sqrt q⌋` for a nonnegative rational `q`, computably. -/
def ratSqrtFloor (q : ℚ) : ℤ := isqrt ⌊q⌋.toNat

/-- `⌈Real.sqrt q⌉` for a nonnegative rational `q`, computably. -/
def ratSqrtCeil (q : ℚ) : ℤ :=
  if ((isqrt ⌊q⌋.toNat : ℚ)) * ((isqrt ⌊q⌋.toNat : ℚ)) = q then (isqrt ⌊q⌋.toNat : ℤ)
  else (isqrt ⌊q⌋.toNat : ℤ) + 1

/-- `⌊1000 * num / Real.sqrt D + 1/2⌋` for rationals with `D > 0`, computably:
this is `Math.round(coefficient * 1000)` for `coefficient = num / Math.sqrt D`.
Uses `⌊x + 1/2⌋ = (⌊2x⌋ + 1) / 2` and `2x = ±√(4000000·num²/D)`. -/
def roundCoeff1000 (num D : ℚ) : ℤ :=
  if 0 ≤ num then (ratSqrtFloor (4000000 * num ^ 2 / D) + 1) / 2
  else (1 - ratSqrtCeil (4000000 * num ^ 2 / D)) / 2

/-- Decides `|dev| / Real.sqrt vr > t` (z-score strictly above threshold) for
`vr > 0`, by squaring. -/
def zAbove (dev vr t : ℚ) : Bool := decide (t < 0) || decide (t ^ 2 * vr < dev ^ 2)

/-- `⌊100 * |dev| / Real.sqrt vr + 1/2⌋` for `vr > 0`, computably: this is
`Math.round(zScore * 100)` for `zScore = |dev| / Math.sqrt vr`. -/
def zRound100 (dev vr : ℚ) : ℤ := (ratSqrtFloor (40000 * dev ^ 2 / vr) + 1) / 2

/-! ## Data model (spec §3) -/

/-- Canonical data point.  `label` is produced by the display-formatting
parameter (JS `toLocaleString`). -/
structure DataPoint where
  timestamp : ℚ
  value : ℚ
  originalValue : ℚ
  label : String

instance : Inhabited DataPoint := ⟨⟨0, 0, 0, ""⟩⟩

structure SeriesMetadata where
  unit : String
  min : ℚ
  max : ℚ
  mean : ℚ
  count : ℕ

structure TimeSeries where
  sourceName : String
  dataPoints : List DataPoint
  metadata : SeriesMetadata

structure AlignedPair where
  timestamp : ℚ
  value1 : ℚ
  value2 : ℚ
  originalValue1 : ℚ
  originalValue2 : ℚ
  timeDiff : ℚ

/-- Pair produced by `InsightEngine.alignDataPoints` (no originals/timeDiff). -/
structure CorrPair where
  timestamp : ℚ
  value1 : ℚ
  value2 : ℚ

structure Spike where
  source : String
  timestamp : ℚ
  value : ℚ
  percentChange : ℚ
  zScore : ℚ

instance : Inhabited Spike := ⟨⟨"", 0, 0, 0, 0⟩⟩

structure Correlation where
  coefficient : ℚ
  strength : String
  direction : String

structure TrendPair where
  source1 : String
  source2 : String

structure InsightResult where
  trends : TrendPair
  spikes : List Spike
  correlation : Correlation
  summary : String

/-- Transform configuration fragment consumed by the normalizers. -/
structure TransformConfig where
  normalize : Bool

/-- Untyped JavaScript values appearing inside raw payload arrays.
`null` also stands for `undefined`; `NaN` is not representable (the one
JS operation that produces it here, date parsing, is modelled by an
`Option`-valued parameter). -/
inductive Jv where
  | num (q : ℚ)
  | str (s : String)
  | bool (b : Bool)
  | null
  | arr (elems : List Jv)

/-- `x === null || x === undefined` (both modelled by `Jv.null`). -/
def Jv.isNull : Jv → Bool
  | .null => true
  | _ => false

/-- JavaScript truthiness for the modelled values. -/
def Jv.truthy : Jv → Bool
  | .num q => decide (q ≠ 0)
  | .str s => decide (s ≠ "")
  | .bool b => b
  | .null => false
  | .arr _ => true

/-- Weather data point: the timestamp comes from `new Date(str).getTime()`
and may be `NaN` (modelled `none`); the temperature is pushed without a type
check, so it stays an untyped value. -/
structure WPoint where
  timestamp : Option ℚ
  value : Jv
  originalValue : Jv
  label : String

/-! ## DataNormalizer -/

/-- `createEmptyTimeSeries` (DataNormalizer.js:479). -/
def createEmptyTimeSeries (sourceName unit : String) : TimeSeries :=
  ⟨sourceName, [], ⟨unit, 0, 0, 0, 0⟩⟩

/-- `calculateMetadata` (DataNormalizer.js:447): `Math.min(...values)`,
`Math.max(...values)`, arithmetic mean. -/
def calculateMetadata (values : List ℚ) (unit : String) : SeriesMetadata :=
  match values with
  | [] => ⟨unit, 0, 0, 0, 0⟩
  | v :: vs =>
    ⟨unit, vs.foldl min v, vs.foldl max v,
      (v :: vs).sum / ((v :: vs).length : ℚ), (v :: vs).length⟩

/-- `limitDataPoints` (DataNormalizer.js:500): `splice(0, length - maxPoints)`
keeps the trailing `maxPoints` elements. -/
def limitDataPoints (dataPoints : List DataPoint) (maxPoints : ℕ) : List DataPoint :=
  if maxPoints < dataPoints.length then dataPoints.drop (dataPoints.length - maxPoints)
  else dataPoints

/-- Timestamp order used by `sort((a, b) => a.timestamp - b.timestamp)`. -/
def tsLE (a b : DataPoint) : Prop := a.timestamp ≤ b.timestamp

instance : DecidableRel tsLE := fun a b =>
  inferInstanceAs (Decidable (a.timestamp ≤ b.timestamp))

instance : IsTotal DataPoint tsLE := ⟨fun a b => le_total a.timestamp b.timestamp⟩

instance : IsTrans DataPoint tsLE := ⟨fun _ _ _ hab hbc => le_trans hab hbc⟩

/-- The stable JS `Array.prototype.sort` with the timestamp comparator,
modelled by (stable) insertion sort. -/
def sortByTimestamp (dataPoints : List DataPoint) : List DataPoint :=
  List.insertionSort tsLE dataPoints

/-- `rawData.list` item of the air-quality payload: `main.aqi`, with `none`
modelling an absent (`undefined`) field. -/
structure AQMain where
  aqi : Option ℚ

/-- An air-quality list item; `dt` is `none` when the field is absent. -/
structure AQItem where
  dt : Option ℚ
  main : Option AQMain

/-- Extraction loop of `normalizeAirQuality` (DataNormalizer.js:42–54):
skip when `!item || !item.dt || !item.main || typeof item.main.aqi ===
'undefined'`, else push `{timestamp: dt*1000, value: aqi, originalValue:
aqi, label}`.  Note `!item.dt` is a truthiness test, so `dt = 0` is also
skipped. -/
def aqLoop (fmt : ℚ → String) : List (Option AQItem) → List DataPoint
  | [] => []
  | item? :: rest =>
    match item? with
    | none => aqLoop fmt rest
    | some item =>
      match item.dt, item.main with
      | some dt, some m =>
        if dt = 0 then aqLoop fmt rest
        else
          match m.aqi with
          | some aqi => ⟨dt * 1000, aqi, aqi, fmt (dt * 1000)⟩ :: aqLoop fmt rest
          | none => aqLoop fmt rest
      | _, _ => aqLoop fmt rest

/-- `normalizeAirQuality` (DataNormalizer.js:34–84).  `raw = none` models a
missing/non-array `rawData.list`. -/
def normalizeAirQuality (fmt : ℚ → String) (raw : Option (List (Option AQItem)))
    (transformConfig : TransformConfig) : TimeSeries :=
  match raw with
  | none => createEmptyTimeSeries "Air Quality" "AQI"
  | some list =>
    let dataPoints := aqLoop fmt list
    let sorted := sortByTimestamp dataPoints
    let limited := limitDataPoints sorted 100
    let values := limited.map (·.value)
    let metadata := calculateMetadata values "AQI"
    let range := metadata.max - metadata.min
    let final :=
      if transformConfig.normalize ∧ 0 < limited.length ∧ 0 < range then
        limited.map (fun dp => { dp with value := (dp.originalValue - metadata.min) / range })
      else limited
    ⟨"Air Quality", final, metadata⟩

/-- Extraction loop of `normalizeCrypto` (DataNormalizer.js:100–120):
skip unless the entry is an array of length ≥ 2 whose first two elements
are numbers. -/
def cryptoLoop (fmt : ℚ → String) : List Jv → List DataPoint
  | [] => []
  | pricePoint :: rest =>
    match pricePoint with
    | .arr elems =>
      if elems.length < 2 then cryptoLoop fmt rest
      else
        match elems.getD 0 Jv.null, elems.getD 1 Jv.null with
        | .num timestamp, .num price =>
          ⟨timestamp, price, price, fmt timestamp⟩ :: cryptoLoop fmt rest
        | _, _ => cryptoLoop fmt rest
    | _ => cryptoLoop fmt rest

/-- Single-entry extractor equivalent of the crypto loop (specification
side): succeeds exactly on an array whose first two elements are numbers. -/
def cryptoPointOf (fmt : ℚ → String) : Jv → Option DataPoint
  | .arr (Jv.num timestamp :: Jv.num price :: _) =>
    some ⟨timestamp, price, price, fmt timestamp⟩
  | _ => none

/-- Extraction loop of `normalizeWeather` (DataNormalizer.js:167–183):
iterate while both arrays have elements; skip when `!timeStr || temp ===
null || temp === undefined`; otherwise push with `timestamp = new
Date(timeStr).getTime()` (the `dateParse` parameter; `none` = `NaN`) —
note there is no `NaN` check and no type check on `temp`. -/
def weatherLoop (dateParse : Jv → Option ℚ) (fmtW : Option ℚ → String) :
    List Jv → List Jv → List WPoint
  | timeStr :: times, temp :: temps =>
    if timeStr.truthy = false ∨ temp.isNull = true then
      weatherLoop dateParse fmtW times temps
    else
      let timestamp := dateParse timeStr
      ⟨timestamp, temp, temp, fmtW timestamp⟩ :: weatherLoop dateParse fmtW times temps
  | _, _ => []

/-- Single-entry extractor equivalent of the weather loop (specification
side). -/
def weatherPointOf (dateParse : Jv → Option ℚ) (fmtW : Option ℚ → String)
    (timeStr temp : Jv) : Option WPoint :=
  if timeStr.truthy = false ∨ temp.isNull = true then none
  else some ⟨dateParse timeStr, temp, temp, fmtW (dateParse timeStr)⟩

/-- One step of the closest-point scan (inner loop of the aligner):
update when `diff < minDiff && diff <= toleranceMs`, with `none` playing
`minDiff = Infinity`. -/
def closerStep (t tol : ℚ) (acc : Option (DataPoint × ℚ)) (point2 : DataPoint) :
    Option (DataPoint × ℚ) :=
  let diff := |t - point2.timestamp|
  match acc with
  | none => if diff ≤ tol then some (point2, diff) else none
  | some (c, minDiff) =>
    if diff < minDiff ∧ diff ≤ tol then some (point2, diff) else some (c, minDiff)

/-- Scan of all second-series points for the closest one
(DataNormalizer.js:371–381, duplicated at InsightEngine.js:404–414). -/
def findClosest (t tol : ℚ) (points2 : List DataPoint) : Option (DataPoint × ℚ) :=
  points2.foldl (closerStep t tol) none

/-- Outer loop of `alignTimeSeriesByTimestamp` (DataNormalizer.js:370–393). -/
def alignPairsLoop (tol : ℚ) (points2 : List DataPoint) :
    List DataPoint → List AlignedPair
  | [] => []
  | point1 :: rest =>
    match findClosest point1.timestamp tol points2 with
    | some closest =>
      ⟨point1.timestamp, point1.value, closest.1.value,
        point1.originalValue, closest.1.originalValue,
        |point1.timestamp - closest.1.timestamp|⟩ :: alignPairsLoop tol points2 rest
    | none => alignPairsLoop tol points2 rest

/-- Result record of `alignTimeSeriesByTimestamp`. -/
structure AlignResult where
  series1 : TimeSeries
  series2 : TimeSeries
  alignedPairs : List AlignedPair

/-- `alignTimeSeriesByTimestamp` (DataNormalizer.js:354–400); `none` models a
null/undefined series argument. -/
def alignTimeSeriesByTimestamp (series1 series2 : Option TimeSeries)
    (toleranceMs : ℚ) : AlignResult :=
  match series1, series2 with
  | some s1, some s2 =>
    if s1.dataPoints.length = 0 ∨ s2.dataPoints.length = 0 then ⟨s1, s2, []⟩
    else ⟨s1, s2, alignPairsLoop toleranceMs s2.dataPoints s1.dataPoints⟩
  | s1?, s2? =>
    ⟨s1?.getD (createEmptyTimeSeries "Series 1" ""),
      s2?.getD (createEmptyTimeSeries "Series 2" ""), []⟩

/-! ## InsightEngine -/

/-- Engine state: `this.spikeThreshold`. -/
structure InsightEngine where
  spikeThreshold : ℚ

/-- Constructor (InsightEngine.js:23–25): `options.spikeThreshold || 1.5`;
a falsy (`0` / absent / null) option is replaced by the default. -/
def mkInsightEngine (spikeThresholdOpt : Option ℚ) : InsightEngine :=
  ⟨match spikeThresholdOpt with
    | some t => if t = 0 then 1.5 else t
    | none => 1.5⟩

/-- `detectTrends` (InsightEngine.js:74–119): OLS slope over (index, value),
slope normalized by the mean unless the mean is exactly 0, then a
±0.01 threshold classification. -/
def detectTrends (series : TimeSeries) : String :=
  if series.dataPoints.length < 2 then "stable"
  else
    let dataPoints := series.dataPoints
    let n := dataPoints.length
    let values := dataPoints.map (·.value)
    let sumX : ℚ := ∑ i ∈ Finset.range n, (i : ℚ)
    let sumY : ℚ := ∑ i ∈ Finset.range n, values.getD i 0
    let sumXY : ℚ := ∑ i ∈ Finset.range n, (i : ℚ) * values.getD i 0
    let sumX2 : ℚ := ∑ i ∈ Finset.range n, (i : ℚ) * (i : ℚ)
    let slope := ((n : ℚ) * sumXY - sumX * sumY) / ((n : ℚ) * sumX2 - sumX * sumX)
    let meanValue := sumY / (n : ℚ)
    let normalizedSlope := if meanValue ≠ 0 then slope / meanValue else slope
    if normalizedSlope > 0.01 then "increasing"
    else if normalizedSlope < -0.01 then "decreasing"
    else "stable"

/-- Specification-side normalized slope of the trend claim: OLS slope
`(nΣxy - ΣxΣy)/(nΣx² - (Σx)²)` over (positional index, value) pairs, divided
by the series mean unless the mean is exactly 0. -/
def trendNormSlope (s : TimeSeries) : ℚ :=
  let n := s.dataPoints.length
  let values := s.dataPoints.map (·.value)
  let sumX : ℚ := ∑ i ∈ Finset.range n, (i : ℚ)
  let sumY : ℚ := ∑ i ∈ Finset.range n, values.getD i 0
  let sumXY : ℚ := ∑ i ∈ Finset.range n, (i : ℚ) * values.getD i 0
  let sumX2 : ℚ := ∑ i ∈ Finset.range n, (i : ℚ) * (i : ℚ)
  let slope := ((n : ℚ) * sumXY - sumX * sumY) / ((n : ℚ) * sumX2 - sumX ^ 2)
  let meanValue := sumY / (n : ℚ)
  if meanValue ≠ 0 then slope / meanValue else slope

/-- Loop body of `detectSpikes` (InsightEngine.js:148–177) at index `i`:
z-score test, strict local-extremum test, then the spike record with
percent change from the previous value and both roundings. -/
def spikeCheck (src : String) (dataPoints : List DataPoint) (mean variance threshold : ℚ)
    (i : ℕ) : Option Spike :=
  let currentValue := (dataPoints.getD i default).value
  let prevValue := (dataPoints.getD (i - 1) default).value
  let nextValue := (dataPoints.getD (i + 1) default).value
  if zAbove (currentValue - mean) variance threshold then
    if (prevValue < currentValue ∧ nextValue < currentValue) ∨
        (currentValue < prevValue ∧ currentValue < nextValue) then
      let percentChange :=
        if prevValue ≠ 0 then (currentValue - prevValue) / |prevValue| * 100 else 0
      some ⟨src, (dataPoints.getD i default).timestamp,
        (dataPoints.getD i default).originalValue,
        (jsRound (percentChange * 100) : ℚ) / 100,
        (zRound100 (currentValue - mean) variance : ℚ) / 100⟩
    else none
  else none

/-- `detectSpikes` (InsightEngine.js:127–180).  `stdDev < 0.0001` is embedded
as `variance < 0.0001²` and the z-score comparison/rounding through the
computable square-root helpers; bridge lemmas below prove these match the
`Math.sqrt` semantics. -/
def detectSpikes (series : TimeSeries) (threshold : ℚ) : List Spike :=
  if series.dataPoints.length < 3 then []
  else
    let dataPoints := series.dataPoints
    let values := dataPoints.map (·.value)
    let mean := values.sum / (values.length : ℚ)
    let variance := (values.map (fun v => (v - mean) ^ 2)).sum / (values.length : ℚ)
    if variance < 0.00000001 then []
    else
      (List.range' 1 (dataPoints.length - 2)).filterMap
        (spikeCheck series.sourceName dataPoints mean variance threshold)

/-- Population mean of the series values, as `detectSpikes` computes it. -/
def spikeMean (s : TimeSeries) : ℚ :=
  (s.dataPoints.map (·.value)).sum / ((s.dataPoints.map (·.value)).length : ℚ)

/-- Population variance (divisor n) of the series values, as `detectSpikes`
computes it; the source's `stdDev` is its square root. -/
def spikeVariance (s : TimeSeries) : ℚ :=
  ((s.dataPoints.map (·.value)).map (fun v => (v - spikeMean s) ^ 2)).sum /
    ((s.dataPoints.map (·.value)).length : ℚ)

/-- JS call semantics for `detectSpikes(series, threshold = 1.5)`: the
default applies exactly when the argument is `undefined`. -/
def detectSpikesCall (series : TimeSeries) (threshold : Option ℚ) : List Spike :=
  detectSpikes series (threshold.getD 1.5)

/-- `alignDataPoints` (InsightEngine.js:398–426): fixed 1-hour tolerance,
pairs carry only the values. -/
def alignDataPointsLoop (points2 : List DataPoint) : List DataPoint → List CorrPair
  | [] => []
  | point1 :: rest =>
    match findClosest point1.timestamp 3600000 points2 with
    | some closest =>
      ⟨point1.timestamp, point1.value, closest.1.value⟩ :: alignDataPointsLoop points2 rest
    | none => alignDataPointsLoop points2 rest

/-- `alignDataPoints` entry point. -/
def alignDataPoints (dataPoints1 dataPoints2 : List DataPoint) : List CorrPair :=
  alignDataPointsLoop dataPoints2 dataPoints1

/-- The three Pearson sums of `calculateCorrelation` (InsightEngine.js:219–230):
numerator `Σ diff1·diff2`, `sumSq1`, `sumSq2`. -/
def corrSums (values1 values2 : List ℚ) : ℚ × ℚ × ℚ :=
  let n := values1.length
  let mean1 := values1.sum / (n : ℚ)
  let mean2 := values2.sum / (n : ℚ)
  (∑ i ∈ Finset.range n, (values1.getD i 0 - mean1) * (values2.getD i 0 - mean2),
    ∑ i ∈ Finset.range n, (values1.getD i 0 - mean1) * (values1.getD i 0 - mean1),
    ∑ i ∈ Finset.range n, (values2.getD i 0 - mean2) * (values2.getD i 0 - mean2))

/-- Strength bands on `|coefficient| = |num|/√D` (InsightEngine.js:238–249),
decided by squaring (`D = sumSq1 * sumSq2 > 0` on the branch where this is
used; `D = 0` forces coefficient 0, hence "none"). -/
def strengthOf (num D : ℚ) : String :=
  if D = 0 then "none"
  else if 49 * D ≤ 100 * num ^ 2 then "strong"
  else if 16 * D ≤ 100 * num ^ 2 then "moderate"
  else if D ≤ 100 * num ^ 2 then "weak"
  else "none"

/-- Direction thresholds `coefficient > 0.1` / `< -0.1`
(InsightEngine.js:251–253), decided by squaring (used only when `D > 0`). -/
def dirOf (num D : ℚ) : String :=
  if 0 < num ∧ D < 100 * num ^ 2 then "positive"
  else if num < 0 ∧ D < 100 * num ^ 2 then "negative"
  else "none"

/-- `calculateCorrelation` (InsightEngine.js:188–260).  The source computes
`coefficient = numerator / Math.sqrt(sumSq1 * sumSq2)` (0 when the
denominator is 0), rounds it to 3 decimals and classifies it; here the
rounding and classifications go through the computable helpers, with bridge
lemmas relating them to the `Real.sqrt` semantics. -/
def calculateCorrelation (series1 series2 : TimeSeries) : Correlation :=
  if series1.dataPoints.length = 0 ∨ series2.dataPoints.length = 0 then ⟨0, "none", "none"⟩
  else
    let alignedPairs := alignDataPoints series1.dataPoints series2.dataPoints
    if alignedPairs.length < 2 then ⟨0, "none", "none"⟩
    else
      let values1 := alignedPairs.map (·.value1)
      let values2 := alignedPairs.map (·.value2)
      let s := corrSums values1 values2
      let numerator := s.1
      let D := s.2.1 * s.2.2
      if D = 0 then ⟨0, "none", "none"⟩
      else ⟨(roundCoeff1000 numerator D : ℚ) / 1000, strengthOf numerator D, dirOf numerator D⟩

/-- `createEmptyAnalysis` (InsightEngine.js:433–447). -/
def createEmptyAnalysis : InsightResult :=
  ⟨⟨"stable", "stable"⟩, [], ⟨0, "none", "none"⟩,
    "Insufficient data to generate insights."⟩

/-- `generateTrendInsight` (InsightEngine.js:310–336). -/
def generateTrendInsight (series1 series2 : TimeSeries) (trends : TrendPair) : String :=
  let name1 := if series1.sourceName = "" then "First dataset" else series1.sourceName
  let name2 := if series2.sourceName = "" then "Second dataset" else series2.sourceName
  let trend1 := trends.source1
  let trend2 := trends.source2
  if trend1 = "stable" ∧ trend2 = "stable" then
    "Both " ++ name1 ++ " and " ++ name2 ++ " show stable patterns over the observed period."
  else
    let parts :=
      (if trend1 ≠ "stable" then [name1 ++ " is " ++ trend1] else []) ++
        (if trend2 ≠ "stable" then [name2 ++ " is " ++ trend2] else [])
    if parts.length = 0 then "" else String.intercalate ", while " parts ++ "."

/-- Descending order on `|percentChange|` used by the spike sort
`(a, b) => Math.abs(b.percentChange) - Math.abs(a.percentChange)`. -/
def spikeGE (a b : Spike) : Prop := |b.percentChange| ≤ |a.percentChange|

instance : DecidableRel spikeGE := fun a b =>
  inferInstanceAs (Decidable (|b.percentChange| ≤ |a.percentChange|))

/-- `generateSpikeInsight` (InsightEngine.js:344–365).  `fmtDate` models
`toLocaleDateString`, `numStr` the JS number-to-string conversion. -/
def generateSpikeInsight (fmtDate : ℚ → String) (numStr : ℚ → String)
    (spikes : List Spike) : String :=
  if spikes.length = 0 then ""
  else
    let sortedSpikes := List.insertionSort spikeGE spikes
    let topSpike := sortedSpikes.getD 0 default
    let date := fmtDate topSpike.timestamp
    let direction := if 0 < topSpike.percentChange then "spike" else "drop"
    let absChange := |topSpike.percentChange|
    if spikes.length = 1 then
      "A notable " ++ direction ++ " of " ++ numStr absChange ++ "% was detected in " ++
        topSpike.source ++ " on " ++ date ++ "."
    else
      "Notable fluctuations were detected, including a " ++ numStr absChange ++ "% " ++
        direction ++ " in " ++ topSpike.source ++ " on " ++ date ++ "."

/-- `generateCorrelationInsight` (InsightEngine.js:375–389). -/
def generateCorrelationInsight (numStr : ℚ → String) (series1 series2 : TimeSeries)
    (correlation : Correlation) : String :=
  let name1 := if series1.sourceName = "" then "First dataset" else series1.sourceName
  let name2 := if series2.sourceName = "" then "Second dataset" else series2.sourceName
  if correlation.strength = "none" then
    "No significant correlation was found between " ++ name1 ++ " and " ++ name2 ++ "."
  else
    let directionText := if correlation.direction = "positive" then "positive" else "negative"
    "A " ++ correlation.strength ++ " " ++ directionText ++ " correlation (r=" ++
      numStr correlation.coefficient ++ ") exists between " ++ name1 ++ " and " ++ name2 ++ "."

/-- `generateInsightText` (InsightEngine.js:267–300), for present series (the
null re-check at line 270 is unreachable from `analyzeData`, which already
returned the empty analysis). -/
def generateInsightText (fmtDate : ℚ → String) (numStr : ℚ → String)
    (series1 series2 : TimeSeries) (trends : TrendPair) (spikes : List Spike)
    (correlation : Correlation) : String :=
  let insights :=
    ([generateTrendInsight series1 series2 trends].filter (· ≠ "")) ++
      ([generateSpikeInsight fmtDate numStr spikes].filter (· ≠ "")) ++
        ([generateCorrelationInsight numStr series1 series2 correlation].filter (· ≠ ""))
  if insights.length = 0 then
    "The data shows stable patterns with no significant trends or correlations detected."
  else String.intercalate " " insights

/-- `analyzeData` (InsightEngine.js:33–67); `none` models a null/undefined
series argument (a present series object is always truthy in JS). -/
def analyzeData (eng : InsightEngine) (fmtDate : ℚ → String) (numStr : ℚ → String)
    (series1 series2 : Option TimeSeries) : InsightResult :=
  match series1, series2 with
  | some s1, some s2 =>
    let trend1 := detectTrends s1
    let trend2 := detectTrends s2
    let spikes1 := detectSpikes s1 eng.spikeThreshold
    let spikes2 := detectSpikes s2 eng.spikeThreshold
    let correlation := calculateCorrelation s1 s2
    let spikes := spikes1 ++ spikes2
    let summary :=
      generateInsightText fmtDate numStr s1 s2 ⟨trend1, trend2⟩ spikes correlation
    ⟨⟨trend1, trend2⟩, spikes, correlation, summary⟩
  | _, _ => createEmptyAnalysis

/-! ## Concrete test fixtures (used by witnesses and counterexamples) -/

/-- Trivial display formatter (the claims are independent of formatting). -/
def fmt0 : ℚ → String := fun _ => ""

/-- Trivial weather label formatter. -/
def ofmt0 : Option ℚ → String := fun _ => ""

/-- A date parser on which every string is unparsable (`getTime()` = `NaN`). -/
def parseNone : Jv → Option ℚ := fun _ => none

/-- Builds a series from (timestamp, value) pairs with `originalValue = value`
(as canonicalization produces) and irrelevant metadata. -/
def mkSeries (name : String) (pts : List (ℚ × ℚ)) : TimeSeries :=
  ⟨name, pts.map (fun p => ⟨p.1, p.2, p.2, ""⟩), ⟨"", 0, 0, 0, 0⟩⟩

/-- First series of the correlation-symmetry counterexample. -/
def exA : TimeSeries := mkSeries "A" [(0, 1), (10, 2)]

/-- Second series of the correlation-symmetry counterexample. -/
def exB : TimeSeries := mkSeries "B" [(0, 5), (4, 100), (10, 6)]

/-- Series giving Pearson r exactly 0.1 against `exR2`. -/
def exR1 : TimeSeries := mkSeries "R1" [(0, 1), (1000, -1), (2000, 0), (3000, 0), (4000, 0)]

/-- Series giving Pearson r exactly 0.1 against `exR1`. -/
def exR2 : TimeSeries := mkSeries "R2" [(0, 1), (1000, 0), (2000, 3), (3000, 2), (4000, -6)]

/-- The spike-scenario series with values `[1,1,1,10,1,1,1]`. -/
def exSpike : TimeSeries :=
  mkSeries "S" [(0, 1), (1000, 1), (2000, 1), (3000, 10), (4000, 1), (5000, 1), (6000, 1)]

/-- Three-point series whose middle point is a weak local maximum
(z-score √2 ≈ 1.41, below 1.5). -/
def exMild : TimeSeries := mkSeries "M" [(0, 0), (1000, 1), (2000, 0)]

/-- One-point first series of the alignment scenario. -/
def exT1 : TimeSeries := mkSeries "T1" [(0, 1)]

/-- Second series of the alignment scenario: one point just over and one just
under the 1-hour tolerance from t = 0, in this stored order. -/
def exT2 : TimeSeries := mkSeries "T2" [(3700000, 2), (3500000, 3)]

/-- An uneventful (empty) series named like the air-quality feed. -/
def exEmptyAQ : TimeSeries := createEmptyTimeSeries "Air Quality" "AQI"

/-- An uneventful (empty) series named like the crypto feed. -/
def exEmptyCr : TimeSeries := createEmptyTimeSeries "Cryptocurrency" "USD"

/-- A small air-quality payload: two valid items (out of timestamp order,
AQI 3 and 5) and one `null` entry. -/
def exAQ : List (Option AQItem) :=
  [some ⟨some 2, some ⟨some 3⟩⟩, some ⟨some 1, some ⟨some 5⟩⟩, none]

/-! ## Lemmas: integer square root and rounding bridges -/

theorem isqrtGo_spec (n : ℕ) :
    ∀ (fuel lo hi : ℕ), lo * lo ≤ n → n < hi * hi → hi ≤ lo + fuel + 1 →
      isqrtGo n fuel lo hi * isqrtGo n fuel lo hi ≤ n ∧
        n < (isqrtGo n fuel lo hi + 1) * (isqrtGo n fuel lo hi + 1) := by
  intro fuel
  induction fuel with
  | zero =>
    intro lo hi hlo hhi hgap
    rw [isqrtGo, dif_pos rfl]
    exact ⟨hlo, lt_of_lt_of_le hhi (by nlinarith)⟩
  | succ f ih =>
    intro lo hi hlo hhi hgap
    rw [isqrtGo]
    simp only [Nat.succ_ne_zero, dite_false, Nat.add_sub_cancel]
    by_cases hnarrow : hi ≤ lo + 1
    · rw [if_pos hnarrow]
      exact ⟨hlo, lt_of_lt_of_le hhi (by nlinarith)⟩
    · rw [if_neg hnarrow]
      have hmid1 : lo < (lo + hi) / 2 := by omega
      have hmid2 : (lo + hi) / 2 < hi := by omega
      by_cases hle : (lo + hi) / 2 * ((lo + hi) / 2) ≤ n
      · rw [if_pos hle, if_pos hle]
        exact ih _ _ hle hhi (by omega)
      · rw [if_neg hle, if_neg hle]
        exact ih _ _ hlo (by omega) (by omega)

theorem isqrt_spec (n : ℕ) :
    isqrt n * isqrt n ≤ n ∧ n < (isqrt n + 1) * (isqrt n + 1) :=
  isqrtGo_spec n (n + 1) 0 (n + 1) (by simp) (by nlinarith) (by omega)

/-- Uniqueness: `isqrt` evaluation by certificate, without unfolding. -/
theorem isqrt_eq (n r : ℕ) (h1 : r * r ≤ n) (h2 : n < (r + 1) * (r + 1)) :
    isqrt n = r := by
  obtain ⟨hs1, hs2⟩ := isqrt_spec n
  nlinarith [hs1, hs2, h1, h2]

theorem ratSqrtFloor_eq (q : ℚ) (hq : 0 ≤ q) :
    (ratSqrtFloor q : ℤ) = ⌊Real.sqrt (q : ℝ)⌋ := by
  obtain ⟨h1, h2⟩ := isqrt_spec ⌊q⌋.toNat
  have hfl : (0 : ℤ) ≤ ⌊q⌋ := Int.floor_nonneg.mpr hq
  have hcast : ((⌊q⌋.toNat : ℤ) : ℚ) = (⌊q⌋ : ℚ) := by
    rw [Int.toNat_of_nonneg hfl]
  have hle : ((⌊q⌋.toNat : ℕ) : ℝ) ≤ (q : ℝ) := by
    have h := Int.floor_le q
    have : ((⌊q⌋.toNat : ℤ) : ℚ) ≤ q := by rw [hcast]; exact h
    exact_mod_cast this
  have hlt : (q : ℝ) < ((⌊q⌋.toNat : ℕ) : ℝ) + 1 := by
    have h := Int.lt_floor_add_one q
    have : q < ((⌊q⌋.toNat : ℤ) : ℚ) + 1 := by rw [hcast]; exact h
    exact_mod_cast this
  set s := isqrt ⌊q⌋.toNat with hs
  symm
  rw [show ((ratSqrtFloor q : ℤ)) = ((s : ℕ) : ℤ) from rfl]
  rw [Int.floor_eq_iff]
  constructor
  · push_cast
    rw [Real.le_sqrt (by positivity) (by exact_mod_cast hq)]
    have : ((s * s : ℕ) : ℝ) ≤ ((⌊q⌋.toNat : ℕ) : ℝ) := by exact_mod_cast h1
    push_cast at this
    nlinarith
  · push_cast
    rw [Real.sqrt_lt' (by positivity)]
    have : ((⌊q⌋.toNat : ℕ) : ℝ) + 1 ≤ (((s + 1) * (s + 1) : ℕ) : ℝ) := by exact_mod_cast h2
    push_cast at this
    nlinarith

theorem ratSqrtCeil_eq (q : ℚ) (hq : 0 ≤ q) :
    (ratSqrtCeil q : ℤ) = ⌈Real.sqrt (q : ℝ)⌉ := by
  have hfloor : ((isqrt ⌊q⌋.toNat : ℕ) : ℤ) = ⌊Real.sqrt (q : ℝ)⌋ := ratSqrtFloor_eq q hq
  set m := isqrt ⌊q⌋.toNat with hm
  rw [ratSqrtCeil, ← hm]
  by_cases hsq : ((m : ℚ)) * ((m : ℚ)) = q
  · rw [if_pos hsq]
    have hsr : Real.sqrt (q : ℝ) = ((m : ℕ) : ℝ) := by
      rw [Real.sqrt_eq_iff_mul_self_eq (by exact_mod_cast hq) (by positivity)]
      exact_mod_cast congrArg (fun z : ℚ => ((z : ℝ))) hsq.symm
    rw [hsr, Int.ceil_natCast]
  · rw [if_neg hsq]
    have h1 : ((m : ℕ) : ℝ) ≤ Real.sqrt (q : ℝ) := by
      have h := Int.floor_le (Real.sqrt (q : ℝ))
      rw [← hfloor] at h
      exact_mod_cast h
    have h2 : Real.sqrt (q : ℝ) < ((m : ℕ) : ℝ) + 1 := by
      have h := Int.lt_floor_add_one (Real.sqrt (q : ℝ))
      rw [← hfloor] at h
      exact_mod_cast h
    have hne : Real.sqrt (q : ℝ) ≠ ((m : ℕ) : ℝ) := by
      intro heq
      apply hsq
      have hqr : (q : ℝ) = ((m : ℕ) : ℝ) * ((m : ℕ) : ℝ) := by
        rw [← heq, Real.mul_self_sqrt (by exact_mod_cast hq)]
      exact_mod_cast hqr.symm
    refine le_antisymm ?_ ?_
    · rw [Int.add_one_le_iff, Int.lt_ceil]
      push_cast
      exact lt_of_le_of_ne h1 (Ne.symm hne)
    · rw [Int.ceil_le]
      push_cast
      linarith

theorem floor_add_half (x : ℝ) : ⌊x + 1/2⌋ = (⌊2 * x⌋ + 1) / 2 := by
  have h1 : ((⌊2 * x⌋ : ℤ) : ℝ) ≤ 2 * x := Int.floor_le _
  have h2 : 2 * x < ((⌊2 * x⌋ : ℤ) : ℝ) + 1 := Int.lt_floor_add_one _
  set m := ⌊2 * x⌋ with hm
  clear_value m
  rcases Int.even_or_odd m with ⟨a, ha⟩ | ⟨a, ha⟩
  · have hk : (m + 1) / 2 = a := by omega
    rw [hk, Int.floor_eq_iff]
    subst ha
    push_cast at h1 h2 ⊢
    constructor <;> linarith
  · have hk : (m + 1) / 2 = a + 1 := by omega
    rw [hk, Int.floor_eq_iff]
    subst ha
    push_cast at h1 h2 ⊢
    constructor <;> linarith

theorem roundCoeff1000_eq (num D : ℚ) (hD : 0 < D) :
    (roundCoeff1000 num D : ℤ) = ⌊1000 * ((num : ℝ) / Real.sqrt (D : ℝ)) + 1/2⌋ := by
  have hDr : (0 : ℝ) < (D : ℝ) := by exact_mod_cast hD
  have hsD : 0 < Real.sqrt (D : ℝ) := Real.sqrt_pos.mpr hDr
  have hW : (0 : ℚ) ≤ 4000000 * num ^ 2 / D := by positivity
  have hsq : ((4000000 * num ^ 2 / D : ℚ) : ℝ) =
      (2 * (1000 * ((num : ℝ) / Real.sqrt (D : ℝ)))) ^ 2 := by
    push_cast
    rw [mul_pow, mul_pow, div_pow, Real.sq_sqrt hDr.le]
    ring
  rw [floor_add_half]
  rw [roundCoeff1000]
  by_cases hnum : 0 ≤ num
  · rw [if_pos hnum]
    have h2x : (0 : ℝ) ≤ 2 * (1000 * ((num : ℝ) / Real.sqrt (D : ℝ))) := by
      have : (0 : ℝ) ≤ (num : ℝ) := by exact_mod_cast hnum
      positivity
    have : ⌊2 * (1000 * ((num : ℝ) / Real.sqrt (D : ℝ)))⌋ =
        ⌊Real.sqrt ((4000000 * num ^ 2 / D : ℚ) : ℝ)⌋ := by
      rw [hsq, Real.sqrt_sq h2x]
    rw [this, ← ratSqrtFloor_eq _ hW]
  · rw [if_neg hnum]
    push_neg at hnum
    have hnr : ((num : ℝ)) < 0 := by exact_mod_cast hnum
    have h2x : (0 : ℝ) ≤ -(2 * (1000 * ((num : ℝ) / Real.sqrt (D : ℝ)))) := by
      have hx : (num : ℝ) / Real.sqrt (D : ℝ) < 0 := div_neg_of_neg_of_pos hnr hsD
      nlinarith
    have hfl : ⌊2 * (1000 * ((num : ℝ) / Real.sqrt (D : ℝ)))⌋ =
        -⌈Real.sqrt ((4000000 * num ^ 2 / D : ℚ) : ℝ)⌉ := by
      have hneg : Real.sqrt ((4000000 * num ^ 2 / D : ℚ) : ℝ) =
          -(2 * (1000 * ((num : ℝ) / Real.sqrt (D : ℝ)))) := by
        rw [hsq, show (2 * (1000 * ((num : ℝ) / Real.sqrt (D : ℝ)))) ^ 2 =
          (-(2 * (1000 * ((num : ℝ) / Real.sqrt (D : ℝ))))) ^ 2 by ring, Real.sqrt_sq h2x]
      rw [hneg]
      rw [show (2 * (1000 * ((num : ℝ) / Real.sqrt (D : ℝ)))) =
        -(-(2 * (1000 * ((num : ℝ) / Real.sqrt (D : ℝ))))) by ring, Int.floor_neg, neg_neg]
    rw [hfl, ← ratSqrtCeil_eq _ hW]
    omega

theorem zRound100_eq (dev vr : ℚ) (hvr : 0 < vr) :
    (zRound100 dev vr : ℤ) = ⌊100 * (|(dev : ℝ)| / Real.sqrt (vr : ℝ)) + 1/2⌋ := by
  have hvrr : (0 : ℝ) < (vr : ℝ) := by exact_mod_cast hvr
  have hsv : 0 < Real.sqrt (vr : ℝ) := Real.sqrt_pos.mpr hvrr
  have hW : (0 : ℚ) ≤ 40000 * dev ^ 2 / vr := by positivity
  have h2x : (0 : ℝ) ≤ 2 * (100 * (|(dev : ℝ)| / Real.sqrt (vr : ℝ))) := by positivity
  have hsq : ((40000 * dev ^ 2 / vr : ℚ) : ℝ) =
      (2 * (100 * (|(dev : ℝ)| / Real.sqrt (vr : ℝ)))) ^ 2 := by
    push_cast
    rw [mul_pow, mul_pow, div_pow, Real.sq_sqrt hvrr.le, sq_abs]
    ring
  rw [floor_add_half, zRound100]
  suffices h : (ratSqrtFloor (40000 * dev ^ 2 / vr) : ℤ) =
      ⌊2 * (100 * (|(dev : ℝ)| / Real.sqrt (vr : ℝ)))⌋ by rw [h]
  rw [ratSqrtFloor_eq _ hW, hsq, Real.sqrt_sq h2x]

theorem zAbove_iff (dev vr t : ℚ) (hvr : 0 < vr) :
    zAbove dev vr t = true ↔ (t : ℝ) < |(dev : ℝ)| / Real.sqrt (vr : ℝ) := by
  have hvrr : (0 : ℝ) < (vr : ℝ) := by exact_mod_cast hvr
  have hsv : 0 < Real.sqrt (vr : ℝ) := Real.sqrt_pos.mpr hvrr
  rw [zAbove]
  simp only [Bool.or_eq_true, decide_eq_true_eq]
  constructor
  · rintro (hlt | hsqlt)
    · have : ((t : ℝ)) < 0 := by exact_mod_cast hlt
      exact lt_of_lt_of_le this (by positivity)
    · rcases lt_or_le t 0 with htneg | htpos
      · have : ((t : ℝ)) < 0 := by exact_mod_cast htneg
        exact lt_of_lt_of_le this (by positivity)
      · have htr : (0 : ℝ) ≤ (t : ℝ) := by exact_mod_cast htpos
        have hr : ((t : ℝ)) ^ 2 * (vr : ℝ) < ((dev : ℝ)) ^ 2 := by exact_mod_cast hsqlt
        rw [lt_div_iff hsv]
        by_contra hcon
        push_neg at hcon
        have habs := abs_nonneg ((dev : ℝ))
        have hsq2 : |(dev : ℝ)| ^ 2 ≤ ((t : ℝ) * Real.sqrt (vr : ℝ)) ^ 2 := by nlinarith
        rw [sq_abs, mul_pow, Real.sq_sqrt hvrr.le] at hsq2
        linarith
  · intro h
    by_cases ht : t < 0
    · exact Or.inl ht
    · push_neg at ht
      right
      have htr : (0 : ℝ) ≤ (t : ℝ) := by exact_mod_cast ht
      rw [lt_div_iff hsv] at h
      have hsq2 : ((t : ℝ) * Real.sqrt (vr : ℝ)) ^ 2 < |(dev : ℝ)| ^ 2 := by
        have h0 : (0 : ℝ) ≤ (t : ℝ) * Real.sqrt (vr : ℝ) := by positivity
        nlinarith
      rw [sq_abs, mul_pow, Real.sq_sqrt hvrr.le] at hsq2
      exact_mod_cast hsq2

/-- The near-constant cut `stdDev < 0.0001` is equivalent to the embedded
test `variance < 0.00000001`. -/
theorem stdDev_cut_iff (vr : ℚ) :
    Real.sqrt (vr : ℝ) < 0.0001 ↔ vr < 0.00000001 := by
  rw [Real.sqrt_lt' (by norm_num : (0:ℝ) < 0.0001)]
  constructor
  · intro h
    have : (vr : ℝ) < ((0.00000001 : ℚ) : ℝ) := by push_cast; nlinarith
    exact_mod_cast this
  · intro h
    have : (vr : ℝ) < ((0.00000001 : ℚ) : ℝ) := by exact_mod_cast h
    push_cast at this
    nlinarith

/-- Band comparison by squaring: for `c, D ≥ 0`, `c ≤ |num| / √D ↔ c²·D ≤ num²`. -/
theorem band_le_iff (num D c : ℚ) (hD : 0 < D) (hc : 0 ≤ c) :
    ((c : ℝ) ≤ |(num : ℝ)| / Real.sqrt (D : ℝ) ↔ c ^ 2 * D ≤ num ^ 2) := by
  have hDr : (0 : ℝ) < (D : ℝ) := by exact_mod_cast hD
  have hsD : 0 < Real.sqrt (D : ℝ) := Real.sqrt_pos.mpr hDr
  have hcr : (0 : ℝ) ≤ (c : ℝ) := by exact_mod_cast hc
  rw [le_div_iff hsD]
  constructor
  · intro h
    have h0 : (0 : ℝ) ≤ (c : ℝ) * Real.sqrt (D : ℝ) := by positivity
    have hsq : ((c : ℝ) * Real.sqrt (D : ℝ)) ^ 2 ≤ |(num : ℝ)| ^ 2 := by nlinarith
    rw [sq_abs, mul_pow, Real.sq_sqrt hDr.le] at hsq
    exact_mod_cast hsq
  · intro h
    have hr : ((c : ℝ)) ^ 2 * (D : ℝ) ≤ ((num : ℝ)) ^ 2 := by exact_mod_cast h
    by_contra hcon
    push_neg at hcon
    have habs := abs_nonneg ((num : ℝ))
    have hsq : |(num : ℝ)| ^ 2 < ((c : ℝ) * Real.sqrt (D : ℝ)) ^ 2 := by nlinarith
    rw [sq_abs, mul_pow, Real.sq_sqrt hDr.le] at hsq
    linarith

/-- Strict comparison by squaring: for `D > 0`, `0.1 < num / √D ↔ 0 < num ∧ D < 100·num²`. -/
theorem dir_pos_iff (num D : ℚ) (hD : 0 < D) :
    ((0.1 : ℝ) < (num : ℝ) / Real.sqrt (D : ℝ) ↔ 0 < num ∧ D < 100 * num ^ 2) := by
  have hDr : (0 : ℝ) < (D : ℝ) := by exact_mod_cast hD
  have hsD : 0 < Real.sqrt (D : ℝ) := Real.sqrt_pos.mpr hDr
  rw [lt_div_iff hsD]
  constructor
  · intro h
    have h0 : (0 : ℝ) < (0.1 : ℝ) * Real.sqrt (D : ℝ) := by positivity
    have hnr : (0 : ℝ) < (num : ℝ) := lt_trans h0 h
    have hn : (0 : ℚ) < num := by exact_mod_cast hnr
    refine ⟨hn, ?_⟩
    have hsq : ((0.1 : ℝ) * Real.sqrt (D : ℝ)) ^ 2 < ((num : ℝ)) ^ 2 := by nlinarith
    rw [mul_pow, Real.sq_sqrt hDr.le] at hsq
    have : (D : ℝ) < 100 * ((num : ℝ)) ^ 2 := by nlinarith
    exact_mod_cast this
  · rintro ⟨hn, hlt⟩
    have hnr : (0 : ℝ) < (num : ℝ) := by exact_mod_cast hn
    have hltr : (D : ℝ) < 100 * ((num : ℝ)) ^ 2 := by exact_mod_cast hlt
    by_contra hcon
    push_neg at hcon
    have h0 : (0 : ℝ) ≤ (num : ℝ) := hnr.le
    have hsq : ((num : ℝ)) ^ 2 ≤ ((0.1 : ℝ) * Real.sqrt (D : ℝ)) ^ 2 := by nlinarith
    rw [mul_pow, Real.sq_sqrt hDr.le] at hsq
    nlinarith

/-- `strengthOf` agrees with the source's band classification of the real
coefficient `num / √D` (for `D > 0`). -/
theorem strengthOf_eq (num D : ℚ) (hD : 0 < D) :
    strengthOf num D =
      (if (0.7 : ℝ) ≤ |(num : ℝ) / Real.sqrt (D : ℝ)| then "strong"
       else if (0.4 : ℝ) ≤ |(num : ℝ) / Real.sqrt (D : ℝ)| then "moderate"
       else if (0.1 : ℝ) ≤ |(num : ℝ) / Real.sqrt (D : ℝ)| then "weak"
       else "none") := by
  have hDr : (0 : ℝ) < (D : ℝ) := by exact_mod_cast hD
  have hsD : 0 < Real.sqrt (D : ℝ) := Real.sqrt_pos.mpr hDr
  have habs : |(num : ℝ) / Real.sqrt (D : ℝ)| = |(num : ℝ)| / Real.sqrt (D : ℝ) := by
    rw [abs_div, abs_of_nonneg hsD.le]
  have e7 : ((0.7 : ℝ) ≤ |(num : ℝ) / Real.sqrt (D : ℝ)|) ↔ 49 * D ≤ 100 * num ^ 2 := by
    rw [habs, show (0.7 : ℝ) = ((7/10 : ℚ) : ℝ) by norm_num,
      band_le_iff num D (7/10) hD (by norm_num)]
    constructor <;> intro h <;> nlinarith
  have e4 : ((0.4 : ℝ) ≤ |(num : ℝ) / Real.sqrt (D : ℝ)|) ↔ 16 * D ≤ 100 * num ^ 2 := by
    rw [habs, show (0.4 : ℝ) = ((4/10 : ℚ) : ℝ) by norm_num,
      band_le_iff num D (4/10) hD (by norm_num)]
    constructor <;> intro h <;> nlinarith
  have e1 : ((0.1 : ℝ) ≤ |(num : ℝ) / Real.sqrt (D : ℝ)|) ↔ D ≤ 100 * num ^ 2 := by
    rw [habs, show (0.1 : ℝ) = ((1/10 : ℚ) : ℝ) by norm_num,
      band_le_iff num D (1/10) hD (by norm_num)]
    constructor <;> intro h <;> nlinarith
  rw [strengthOf, if_neg hD.ne']
  simp only [e7, e4, e1]

/-- `dirOf` agrees with the source's strict thresholds on the real
coefficient `num / √D` (for `D > 0`). -/
theorem dirOf_eq (num D : ℚ) (hD : 0 < D) :
    dirOf num D =
      (if (num : ℝ) / Real.sqrt (D : ℝ) > 0.1 then "positive"
       else if (num : ℝ) / Real.sqrt (D : ℝ) < -0.1 then "negative"
       else "none") := by
  have epos := dir_pos_iff num D hD
  have eneg : ((num : ℝ) / Real.sqrt (D : ℝ) < -0.1) ↔ num < 0 ∧ D < 100 * num ^ 2 := by
    have h := dir_pos_iff (-num) D hD
    push_cast at h
    rw [neg_div] at h
    constructor
    · intro hlt
      have := h.mp (by linarith)
      exact ⟨by linarith [this.1], by nlinarith [this.2]⟩
    · rintro ⟨hn, hD100⟩
      have := h.mpr ⟨by linarith, by nlinarith⟩
      linarith
  rw [dirOf]
  simp only [gt_iff_lt, epos, eneg]

/-! ## Lemmas: the closest-point scan -/

theorem closer_foldl_ne_none (t tol : ℚ) (pts : List DataPoint) :
    ∀ c m, List.foldl (closerStep t tol) (some (c, m)) pts ≠ none := by
  induction pts with
  | nil => intro c m h; exact Option.noConfusion h
  | cons p rest ih =>
    intro c m
    rw [List.foldl_cons]
    by_cases hcond : |t - p.timestamp| < m ∧ |t - p.timestamp| ≤ tol
    · rw [show closerStep t tol (some (c, m)) p = some (p, |t - p.timestamp|) by
        simp [closerStep, hcond]]
      exact ih _ _
    · rw [show closerStep t tol (some (c, m)) p = some (c, m) by simp [closerStep, hcond]]
      exact ih _ _

theorem findClosest_eq_none_iff (t tol : ℚ) (pts : List DataPoint) :
    findClosest t tol pts = none ↔ ∀ q ∈ pts, tol < |t - q.timestamp| := by
  rw [findClosest]
  induction pts with
  | nil => simp
  | cons p rest ih =>
    rw [List.foldl_cons]
    by_cases hp : |t - p.timestamp| ≤ tol
    · rw [show closerStep t tol none p = some (p, |t - p.timestamp|) by simp [closerStep, hp]]
      constructor
      · intro h
        exact absurd h (closer_foldl_ne_none t tol rest _ _)
      · intro h
        exact absurd hp (not_le.mpr (h p (List.mem_cons_self p rest)))
    · rw [show closerStep t tol none p = none by simp [closerStep, hp]]
      rw [ih]
      constructor
      · intro h q hq
        rcases List.mem_cons.mp hq with rfl | hmem
        · exact not_le.mp hp
        · exact h q hmem
      · intro h q hq
        exact h q (List.mem_cons_of_mem _ hq)

theorem closer_foldl_min (t tol : ℚ) (pts : List DataPoint) :
    ∀ (acc : Option (DataPoint × ℚ)) (p : DataPoint) (d : ℚ),
      (∀ c m, acc = some (c, m) → m ≤ tol) →
      List.foldl (closerStep t tol) acc pts = some (p, d) →
      d ≤ tol ∧ (∀ q ∈ pts, |t - q.timestamp| ≤ tol → d ≤ |t - q.timestamp|) ∧
        (∀ c m, acc = some (c, m) → d ≤ m) ∧
        (acc = some (p, d) ∨ (p ∈ pts ∧ d = |t - p.timestamp|)) := by
  induction pts with
  | nil =>
    intro acc p d hacc hfold
    simp only [List.foldl_nil] at hfold
    subst hfold
    refine ⟨hacc _ _ rfl, by simp, ?_, Or.inl rfl⟩
    intro c m hcm
    obtain ⟨rfl, rfl⟩ : p = c ∧ d = m := by simpa using hcm
    exact le_refl _
  | cons q rest ih =>
    intro acc p d hacc hfold
    rw [List.foldl_cons] at hfold
    cases acc with
    | none =>
      by_cases hq : |t - q.timestamp| ≤ tol
      · rw [show closerStep t tol none q = some (q, |t - q.timestamp|) by
          simp [closerStep, hq]] at hfold
        obtain ⟨hdtol, hrest, hdacc, hfrom⟩ := ih _ p d
          (by
            rintro c m hcm
            obtain ⟨rfl, rfl⟩ : q = c ∧ |t - q.timestamp| = m := by simpa using hcm
            exact hq) hfold
        refine ⟨hdtol, ?_, by simp, ?_⟩
        · intro q' hq' htolq'
          rcases List.mem_cons.mp hq' with rfl | hmem
          · exact hdacc _ _ rfl
          · exact hrest _ hmem htolq'
        · rcases hfrom with heq | ⟨hmem, hd⟩
          · obtain ⟨rfl, rfl⟩ : q = p ∧ |t - q.timestamp| = d := by simpa using heq
            exact Or.inr ⟨List.mem_cons_self _ _, rfl⟩
          · exact Or.inr ⟨List.mem_cons_of_mem _ hmem, hd⟩
      · rw [show closerStep t tol none q = none by simp [closerStep, hq]] at hfold
        obtain ⟨hdtol, hrest, hdacc, hfrom⟩ := ih _ p d (by simp) hfold
        refine ⟨hdtol, ?_, by simp, ?_⟩
        · intro q' hq' htolq'
          rcases List.mem_cons.mp hq' with rfl | hmem
          · exact absurd htolq' hq
          · exact hrest _ hmem htolq'
        · rcases hfrom with heq | ⟨hmem, hd⟩
          · exact absurd heq (by simp)
          · exact Or.inr ⟨List.mem_cons_of_mem _ hmem, hd⟩
    | some cm =>
      obtain ⟨c, m⟩ := cm
      have hmtol : m ≤ tol := hacc c m rfl
      by_cases hcond : |t - q.timestamp| < m ∧ |t - q.timestamp| ≤ tol
      · rw [show closerStep t tol (some (c, m)) q = some (q, |t - q.timestamp|) by
          simp [closerStep, hcond]] at hfold
        obtain ⟨hdtol, hrest, hdacc, hfrom⟩ := ih _ p d
          (by
            rintro c' m' hcm
            obtain ⟨rfl, rfl⟩ : q = c' ∧ |t - q.timestamp| = m' := by simpa using hcm
            exact hcond.2) hfold
        have hdq : d ≤ |t - q.timestamp| := hdacc _ _ rfl
        refine ⟨hdtol, ?_, ?_, ?_⟩
        · intro q' hq' htolq'
          rcases List.mem_cons.mp hq' with rfl | hmem
          · exact hdq
          · exact hrest _ hmem htolq'
        · intro c' m' hcm
          obtain ⟨rfl, rfl⟩ : c = c' ∧ m = m' := by simpa using hcm
          linarith [hcond.1]
        · rcases hfrom with heq | ⟨hmem, hd⟩
          · obtain ⟨rfl, rfl⟩ : q = p ∧ |t - q.timestamp| = d := by simpa using heq
            exact Or.inr ⟨List.mem_cons_self _ _, rfl⟩
          · exact Or.inr ⟨List.mem_cons_of_mem _ hmem, hd⟩
      · rw [show closerStep t tol (some (c, m)) q = some (c, m) by
          simp [closerStep, hcond]] at hfold
        obtain ⟨hdtol, hrest, hdacc, hfrom⟩ := ih _ p d
          (by
            rintro c' m' hcm
            obtain ⟨rfl, rfl⟩ : c = c' ∧ m = m' := by simpa using hcm
            exact hmtol) hfold
        have hdm : d ≤ m := hdacc _ _ rfl
        refine ⟨hdtol, ?_, ?_, ?_⟩
        · intro q' hq' htolq'
          rcases List.mem_cons.mp hq' with rfl | hmem
          · have hge : m ≤ |t - q'.timestamp| :=
              le_of_not_lt (fun hlt => hcond ⟨hlt, htolq'⟩)
            linarith
          · exact hrest _ hmem htolq'
        · intro c' m' hcm
          obtain ⟨rfl, rfl⟩ : c = c' ∧ m = m' := by simpa using hcm
          exact hdm
        · rcases hfrom with heq | ⟨hmem, hd⟩
          · exact Or.inl heq
          · exact Or.inr ⟨List.mem_cons_of_mem _ hmem, hd⟩

theorem closer_foldl_first (t tol : ℚ) (pts : List DataPoint) :
    ∀ (acc : Option (DataPoint × ℚ)) (p : DataPoint) (d : ℚ),
      List.foldl (closerStep t tol) acc pts = some (p, d) →
      acc = some (p, d) ∨
        ∃ i : ℕ, ∃ hi : i < pts.length, pts[i] = p ∧ d = |t - p.timestamp| ∧ d ≤ tol ∧
          (∀ c m, acc = some (c, m) → d < m) ∧
          ∀ j (hj : j < i), d < |t - (pts[j]).timestamp| := by
  induction pts with
  | nil =>
    intro acc p d hfold
    simp only [List.foldl_nil] at hfold
    exact Or.inl hfold
  | cons q rest ih =>
    intro acc p d hfold
    rw [List.foldl_cons] at hfold
    have lift :
        ∀ (i : ℕ) (hi : i < rest.length), rest[i] = p → d = |t - p.timestamp| → d ≤ tol →
        (∀ j (hj : j < i), d < |t - (rest[j]).timestamp|) →
        (d < |t - q.timestamp|) →
        (∀ c m, acc = some (c, m) → d < m) →
        ∃ i : ℕ, ∃ hi : i < (q :: rest).length, (q :: rest)[i] = p ∧
          d = |t - p.timestamp| ∧ d ≤ tol ∧
          (∀ c m, acc = some (c, m) → d < m) ∧
          ∀ j (hj : j < i), d < |t - ((q :: rest)[j]).timestamp| := by
      intro i hi hpi hdp hdtol hfirst hdq haccb
      refine ⟨i + 1, by simpa using Nat.succ_lt_succ hi, by simpa using hpi, hdp, hdtol, haccb, ?_⟩
      intro j hj
      match j with
      | 0 => simpa using hdq
      | Nat.succ j' => simpa using hfirst j' (by omega)
    cases acc with
    | none =>
      by_cases hq : |t - q.timestamp| ≤ tol
      · rw [show closerStep t tol none q = some (q, |t - q.timestamp|) by
          simp [closerStep, hq]] at hfold
        rcases ih _ p d hfold with heq | hex
        · obtain ⟨rfl, rfl⟩ : q = p ∧ |t - q.timestamp| = d := by simpa using heq
          exact Or.inr ⟨0, by simp, by simp, by simp, by simpa using hq, by simp, by omega⟩
        · obtain ⟨i, hi, hpi, hdp, hdtol, hstep, hfirst⟩ := hex
          exact Or.inr (lift i hi hpi hdp hdtol hfirst (hstep _ _ rfl) (by simp))
      · rw [show closerStep t tol none q = none by simp [closerStep, hq]] at hfold
        rcases ih _ p d hfold with heq | hex
        · exact absurd heq (by simp)
        · obtain ⟨i, hi, hpi, hdp, hdtol, hstep, hfirst⟩ := hex
          exact Or.inr (lift i hi hpi hdp hdtol hfirst
            (lt_of_le_of_lt hdtol (not_le.mp hq)) (by simp))
    | some cm =>
      obtain ⟨c, m⟩ := cm
      by_cases hcond : |t - q.timestamp| < m ∧ |t - q.timestamp| ≤ tol
      · rw [show closerStep t tol (some (c, m)) q = some (q, |t - q.timestamp|) by
          simp [closerStep, hcond]] at hfold
        rcases ih _ p d hfold with heq | hex
        · obtain ⟨rfl, rfl⟩ : q = p ∧ |t - q.timestamp| = d := by simpa using heq
          refine Or.inr ⟨0, by simp, by simp, by simp, by simpa using hcond.2, ?_, by omega⟩
          intro c' m' hcm
          obtain ⟨rfl, rfl⟩ : c = c' ∧ m = m' := by simpa using hcm
          exact hcond.1
        · obtain ⟨i, hi, hpi, hdp, hdtol, hstep, hfirst⟩ := hex
          have hdq : d < |t - q.timestamp| := hstep _ _ rfl
          refine Or.inr (lift i hi hpi hdp hdtol hfirst hdq ?_)
          intro c' m' hcm
          obtain ⟨rfl, rfl⟩ : c = c' ∧ m = m' := by simpa using hcm
          exact lt_trans hdq hcond.1
      · rw [show closerStep t tol (some (c, m)) q = some (c, m) by
          simp [closerStep, hcond]] at hfold
        rcases ih _ p d hfold with heq | hex
        · exact Or.inl heq
        · obtain ⟨i, hi, hpi, hdp, hdtol, hstep, hfirst⟩ := hex
          have hdm : d < m := hstep _ _ rfl
          have hdq : d < |t - q.timestamp| := by
            rcases not_and_or.mp hcond with hnm | hntol
            · exact lt_of_lt_of_le hdm (le_of_not_lt hnm)
            · exact lt_of_le_of_lt hdtol (not_le.mp hntol)
          refine Or.inr (lift i hi hpi hdp hdtol hfirst hdq ?_)
          intro c' m' hcm
          obtain ⟨rfl, rfl⟩ : c = c' ∧ m = m' := by simpa using hcm
          exact hdm

/-- When the scanned list contains a point with the exact timestamp and
timestamps are duplicate-free, the scan picks that point with diff 0. -/
theorem findClosest_self (pts : List DataPoint) (k : ℕ) (hk : k < pts.length)
    (hnd : (pts.map (·.timestamp)).Nodup) (tol : ℚ) (htol : 0 ≤ tol) :
    findClosest ((pts[k]).timestamp) tol pts = some (pts[k], 0) := by
  rcases h : findClosest ((pts[k]).timestamp) tol pts with _ | ⟨p, d⟩
  · rw [findClosest_eq_none_iff] at h
    have hcontr := h (pts[k]) (List.getElem_mem hk)
    rw [sub_self, abs_zero] at hcontr
    exact absurd hcontr (not_lt.mpr htol)
  · obtain ⟨hdtol, hmin, _, hfrom⟩ :=
      closer_foldl_min ((pts[k]).timestamp) tol pts none p d (by simp) h
    rcases hfrom with habs | ⟨hmem, hd⟩
    · exact absurd habs (by simp)
    · have h0 : d ≤ 0 := by
        have hx := hmin (pts[k]) (List.getElem_mem hk) (by rw [sub_self, abs_zero]; exact htol)
        rwa [sub_self, abs_zero] at hx
      have hd0 : d = 0 := le_antisymm h0 (hd ▸ abs_nonneg _)
      have hts : p.timestamp = (pts[k]).timestamp := by
        have habs0 : |(pts[k]).timestamp - p.timestamp| = 0 := by rw [← hd, hd0]
        have := abs_eq_zero.mp habs0
        linarith
      obtain ⟨j, hj, hpj⟩ := List.getElem_of_mem hmem
      have hjk : j = k := by
        have hmj : j < (pts.map (·.timestamp)).length := by simpa using hj
        have hmk : k < (pts.map (·.timestamp)).length := by simpa using hk
        have heqm : (pts.map (·.timestamp))[j] = (pts.map (·.timestamp))[k] := by
          rw [List.getElem_map, List.getElem_map, hpj, hts]
        exact (List.Nodup.getElem_inj_iff hnd).mp heqm
      subst hjk
      rw [← hpj, hd0]

/-- The inner correlation-alignment loop, when every first-series point finds
a zero-diff partner positionally, produces the positional value pairs. -/
theorem alignLoop_forall2 (pts2 : List DataPoint) :
    ∀ (pts1 partner : List DataPoint),
      List.Forall₂ (fun a b => findClosest a.timestamp 3600000 pts2 = some (b, 0))
        pts1 partner →
      alignDataPointsLoop pts2 pts1 =
        List.zipWith (fun a b => CorrPair.mk a.timestamp a.value b.value) pts1 partner := by
  intro pts1
  induction pts1 with
  | nil =>
    intro partner hf
    cases hf
    rfl
  | cons a rest ih =>
    intro partner hf
    cases hf with
    | cons hab htail =>
      rw [alignDataPointsLoop, hab, List.zipWith_cons_cons, ih _ htail]

/-- `alignDataPoints` over two series with positionally identical,
duplicate-free timestamps pairs the points positionally. -/
theorem alignDataPoints_self (pts1 pts2 : List DataPoint)
    (hts : pts1.map (·.timestamp) = pts2.map (·.timestamp))
    (hnd : (pts2.map (·.timestamp)).Nodup) :
    alignDataPoints pts1 pts2 =
      List.zipWith (fun a b => CorrPair.mk a.timestamp a.value b.value) pts1 pts2 := by
  have hlen : pts1.length = pts2.length := by
    have h := congrArg List.length hts
    simpa using h
  rw [alignDataPoints]
  refine alignLoop_forall2 pts2 pts1 pts2 (List.forall₂_iff_get.mpr ⟨hlen, ?_⟩)
  intro i h1 h2
  simp only [List.get_eq_getElem]
  have htsi : (pts1[i]).timestamp = (pts2[i]).timestamp := by
    have hmi1 : i < (pts1.map (·.timestamp)).length := by simpa using h1
    have hmi2 : i < (pts2.map (·.timestamp)).length := by simpa using h2
    have := congrArg (fun l => l[i]?) hts
    simp only [List.getElem?_eq_getElem, hmi1, hmi2, List.getElem_map] at this
    simpa using this
  rw [htsi]
  exact findClosest_self pts2 i h2 hnd 3600000 (by norm_num)

/-- Swapping the two value lists transposes the Pearson sums. -/
theorem corrSums_swap (v1 v2 : List ℚ) (hlen : v2.length = v1.length) :
    corrSums v2 v1 = ((corrSums v1 v2).1, (corrSums v1 v2).2.2, (corrSums v1 v2).2.1) := by
  simp only [corrSums, hlen]
  refine congrArg₂ Prod.mk ?_ rfl
  exact Finset.sum_congr rfl fun i _ => mul_comm _ _

theorem zipWith_corr_value1 (l1 l2 : List DataPoint) (hlen : l1.length = l2.length) :
    (List.zipWith (fun a b => CorrPair.mk a.timestamp a.value b.value) l1 l2).map
        (·.value1) = l1.map (·.value) := by
  apply List.ext_getElem
  · simp [hlen]
  · intro n h1 h2
    simp [List.getElem_zipWith]

theorem zipWith_corr_value2 (l1 l2 : List DataPoint) (hlen : l1.length = l2.length) :
    (List.zipWith (fun a b => CorrPair.mk a.timestamp a.value b.value) l1 l2).map
        (·.value2) = l2.map (·.value) := by
  apply List.ext_getElem
  · simp [hlen]
  · intro n h1 h2
    simp [List.getElem_zipWith]

/-- C1 (amended): `calculateCorrelation` is coefficient-symmetric whenever the
two series carry positionally identical, duplicate-free timestamps (under
which the directional alignment step pairs the same points both ways); the
unrestricted claim fails, see the counterexample. -/
theorem C1_amended_symmetry (A B : TimeSeries)
    (hts : A.dataPoints.map (·.timestamp) = B.dataPoints.map (·.timestamp))
    (hnd : (A.dataPoints.map (·.timestamp)).Nodup) :
    (calculateCorrelation A B).coefficient = (calculateCorrelation B A).coefficient := by
  have hndB : (B.dataPoints.map (·.timestamp)).Nodup := hts ▸ hnd
  have hlen : A.dataPoints.length = B.dataPoints.length := by
    simpa using congrArg List.length hts
  have hAB := alignDataPoints_self A.dataPoints B.dataPoints hts hndB
  have hBA := alignDataPoints_self B.dataPoints A.dataPoints hts.symm hnd
  simp only [calculateCorrelation]
  by_cases hempty : A.dataPoints.length = 0
  · rw [if_pos (Or.inl hempty), if_pos (Or.inr hempty)]
  · have hBne : ¬ B.dataPoints.length = 0 := fun h => hempty (hlen.trans h)
    have hne1 : ¬ (A.dataPoints.length = 0 ∨ B.dataPoints.length = 0) := by
      push_neg
      exact ⟨hempty, hBne⟩
    have hne2 : ¬ (B.dataPoints.length = 0 ∨ A.dataPoints.length = 0) := by
      push_neg
      exact ⟨hBne, hempty⟩
    rw [if_neg hne1, if_neg hne2]
    rw [hAB, hBA]
    have hlAB : (List.zipWith (fun a b => CorrPair.mk a.timestamp a.value b.value)
        A.dataPoints B.dataPoints).length = A.dataPoints.length := by
      rw [List.length_zipWith, hlen, min_self]
    have hlBA : (List.zipWith (fun a b => CorrPair.mk a.timestamp a.value b.value)
        B.dataPoints A.dataPoints).length = A.dataPoints.length := by
      rw [List.length_zipWith, hlen, min_self]
    by_cases hsmall : A.dataPoints.length < 2
    · have hsAB : (List.zipWith (fun a b => CorrPair.mk a.timestamp a.value b.value)
          A.dataPoints B.dataPoints).length < 2 := by rw [hlAB]; exact hsmall
      have hsBA : (List.zipWith (fun a b => CorrPair.mk a.timestamp a.value b.value)
          B.dataPoints A.dataPoints).length < 2 := by rw [hlBA]; exact hsmall
      rw [if_pos hsAB, if_pos hsBA]
    · have hsAB : ¬ (List.zipWith (fun a b => CorrPair.mk a.timestamp a.value b.value)
          A.dataPoints B.dataPoints).length < 2 := by rw [hlAB]; exact hsmall
      have hsBA : ¬ (List.zipWith (fun a b => CorrPair.mk a.timestamp a.value b.value)
          B.dataPoints A.dataPoints).length < 2 := by rw [hlBA]; exact hsmall
      rw [if_neg hsAB, if_neg hsBA]
      rw [zipWith_corr_value1 _ _ hlen, zipWith_corr_value2 _ _ hlen,
        zipWith_corr_value1 _ _ hlen.symm, zipWith_corr_value2 _ _ hlen.symm]
      rw [corrSums_swap (A.dataPoints.map (·.value)) (B.dataPoints.map (·.value))
        (by simp [hlen])]
      set s := corrSums (A.dataPoints.map (·.value)) (B.dataPoints.map (·.value)) with hs
      by_cases hD : s.2.1 * s.2.2 = 0
    -- the product of the two sums of squares is symmetric
      · rw [if_pos hD, if_pos (by rw [mul_comm]; exact hD)]
      · rw [if_neg hD, if_neg (by rw [mul_comm]; exact hD)]
        simp only [mul_comm s.2.2 s.2.1]

/-- C1, counterexample: correlation symmetry fails as stated.  With
`exA = [(t=0, 1), (t=10, 2)]` and `exB = [(t=0, 5), (t=4, 100), (t=10, 6)]`
(all within the 1-hour alignment tolerance), `calculateCorrelation(exA, exB)`
aligns 2 pairs giving r = 1, while `calculateCorrelation(exB, exA)` aligns 3
pairs giving r ≈ -0.492: the coefficients differ. -/
theorem C1_counterexample :
    (calculateCorrelation exA exB).coefficient ≠ (calculateCorrelation exB exA).coefficient := by
  have hAB : (calculateCorrelation exA exB).coefficient = 1 := by
    norm_num [calculateCorrelation, exA, exB, mkSeries, alignDataPoints, alignDataPointsLoop,
      findClosest, List.foldl_cons, List.foldl_nil, closerStep, corrSums,
      Finset.sum_range_succ, Finset.sum_range_zero, List.getD, roundCoeff1000,
      ratSqrtFloor, ratSqrtCeil,
      show isqrt (Int.toNat 4000000) = 2000 from isqrt_eq 4000000 2000 (by norm_num) (by norm_num)]
  have hBA : (calculateCorrelation exB exA).coefficient = -123/250 := by
    norm_num [calculateCorrelation, exA, exB, mkSeries, alignDataPoints, alignDataPointsLoop,
      findClosest, List.foldl_cons, List.foldl_nil, closerStep, corrSums,
      Finset.sum_range_succ, Finset.sum_range_zero, List.getD, roundCoeff1000,
      ratSqrtFloor, ratSqrtCeil,
      show isqrt (Int.toNat 968424) = 984 from isqrt_eq 968424 984 (by norm_num) (by norm_num)]
  rw [hAB, hBA]
  norm_num

/-- C1, witness: the amended symmetry theorem applied to the concrete pair
`exR1`, `exR2`, which share the timestamp list `[0, 1000, 2000, 3000, 4000]`. -/
theorem C1_witness :
    (calculateCorrelation exR1 exR2).coefficient =
      (calculateCorrelation exR2 exR1).coefficient :=
  C1_amended_symmetry exR1 exR2 (by norm_num [exR1, exR2, mkSeries])
    (by norm_num [exR1, mkSeries])

theorem detectTrends_eq (s : TimeSeries) :
    detectTrends s =
      if s.dataPoints.length < 2 then "stable"
      else if trendNormSlope s > 0.01 then "increasing"
      else if trendNormSlope s < -0.01 then "decreasing"
      else "stable" := by
  simp only [detectTrends, trendNormSlope, pow_two]

/-- C5: `detectTrends` returns "stable" for fewer than 2 points; otherwise it
computes the OLS slope `(nΣxy - ΣxΣy)/(nΣx² - (Σx)²)` over (index, value)
pairs, normalizes by the mean value unless the mean is exactly 0, and
classifies by the ±0.01 thresholds; consequently constant series are
"stable", and strictly increasing series with nonzero mean and
slope/mean > 0.01 are "increasing". -/
theorem C5_detectTrends (s : TimeSeries) :
    (s.dataPoints.length < 2 → detectTrends s = "stable") ∧
    (2 ≤ s.dataPoints.length →
      (detectTrends s = "increasing" ↔ trendNormSlope s > 0.01) ∧
      (detectTrends s = "decreasing" ↔ trendNormSlope s < -0.01) ∧
      (detectTrends s = "stable" ↔ ¬ trendNormSlope s > 0.01 ∧ ¬ trendNormSlope s < -0.01)) ∧
    (∀ c : ℚ, (∀ p ∈ s.dataPoints, p.value = c) → detectTrends s = "stable") ∧
    ((∀ (i j : ℕ) (hi : i < s.dataPoints.length) (hj : j < s.dataPoints.length), i < j →
        (s.dataPoints[i]).value < (s.dataPoints[j]).value) →
      2 ≤ s.dataPoints.length →
      (s.dataPoints.map (·.value)).sum / (s.dataPoints.length : ℚ) ≠ 0 →
      trendNormSlope s > 0.01 → detectTrends s = "increasing") := by
  refine ⟨?_, ?_, ?_, ?_⟩
  · intro h
    rw [detectTrends_eq, if_pos h]
  · intro h2
    rw [detectTrends_eq, if_neg (not_lt.mpr h2)]
    refine ⟨?_, ?_, ?_⟩ <;> split_ifs with ha hb <;> simp_all <;> linarith
  · intro c hc
    rw [detectTrends_eq]
    by_cases hlen : s.dataPoints.length < 2
    · rw [if_pos hlen]
    · rw [if_neg hlen]
      have hval : ∀ i < s.dataPoints.length, (s.dataPoints.map (·.value)).getD i 0 = c := by
        intro i hi
        have hm : i < (s.dataPoints.map (·.value)).length := by simpa using hi
        rw [List.getD_eq_getElem _ _ hm, List.getElem_map]
        exact hc _ (List.getElem_mem hi)
      have hns : trendNormSlope s = 0 := by
        simp only [trendNormSlope]
        have hXY : (∑ i ∈ Finset.range s.dataPoints.length,
            (i : ℚ) * (s.dataPoints.map (·.value)).getD i 0) =
            (∑ i ∈ Finset.range s.dataPoints.length, (i : ℚ)) * c := by
          rw [Finset.sum_mul]
          refine Finset.sum_congr rfl fun i hi => ?_
          rw [hval i (Finset.mem_range.mp hi)]
        have hY : (∑ i ∈ Finset.range s.dataPoints.length,
            (s.dataPoints.map (·.value)).getD i 0) = (s.dataPoints.length : ℚ) * c := by
          rw [show (∑ i ∈ Finset.range s.dataPoints.length,
              (s.dataPoints.map (·.value)).getD i 0) =
              (∑ _i ∈ Finset.range s.dataPoints.length, c) from
            Finset.sum_congr rfl fun i hi => hval i (Finset.mem_range.mp hi)]
          rw [Finset.sum_const, Finset.card_range, nsmul_eq_mul]
        rw [hXY, hY]
        rw [show (s.dataPoints.length : ℚ) *
            ((∑ i ∈ Finset.range s.dataPoints.length, (i : ℚ)) * c) -
            (∑ i ∈ Finset.range s.dataPoints.length, (i : ℚ)) *
              ((s.dataPoints.length : ℚ) * c) = 0 by ring]
        rw [zero_div]
        split_ifs <;> simp [zero_div]
      rw [hns]
      rw [if_neg (by norm_num), if_neg (by norm_num)]
  · intro _ h2 _ hns
    rw [detectTrends_eq, if_neg (not_lt.mpr h2), if_pos hns]

/-- C5, witness: the constant two-point series `[(0,5),(1000,5)]` classifies
"stable", by the constant-series clause of the theorem. -/
theorem C5_witness : detectTrends (mkSeries "K" [(0, 5), (1000, 5)]) = "stable" :=
  (C5_detectTrends (mkSeries "K" [(0, 5), (1000, 5)])).2.2.1 5
    (by norm_num [mkSeries])

/-- C9: `analyzeData` on a null/undefined series argument returns the complete
zeroed `InsightResult` with the literal summary "Insufficient data to generate
insights." (no exception), and this fallback is distinct from the summary
produced for two present-but-uneventful series. -/
theorem C9_analyzeData_null (eng : InsightEngine) (fmtDate numStr : ℚ → String)
    (s1 s2 : Option TimeSeries) (h : s1 = none ∨ s2 = none) :
    analyzeData eng fmtDate numStr s1 s2 = createEmptyAnalysis ∧
    createEmptyAnalysis =
      ⟨⟨"stable", "stable"⟩, [], ⟨0, "none", "none"⟩,
        "Insufficient data to generate insights."⟩ ∧
    (analyzeData eng fmtDate numStr (some exEmptyAQ) (some exEmptyCr)).summary =
      "Both Air Quality and Cryptocurrency show stable patterns over the observed period. No significant correlation was found between Air Quality and Cryptocurrency." ∧
    (analyzeData eng fmtDate numStr (some exEmptyAQ) (some exEmptyCr)).summary ≠
      "Insufficient data to generate insights." := by
  have hsum : (analyzeData eng fmtDate numStr (some exEmptyAQ) (some exEmptyCr)).summary =
      "Both Air Quality and Cryptocurrency show stable patterns over the observed period. No significant correlation was found between Air Quality and Cryptocurrency." := by
    rfl
  refine ⟨?_, rfl, hsum, ?_⟩
  · rcases h with rfl | rfl
    · cases s2 <;> rfl
    · cases s1 <;> rfl
  · rw [hsum]
    simp

/-- C9, witness: the theorem applied at `s1 = none`. -/
theorem C9_witness :
    analyzeData (mkInsightEngine none) fmt0 fmt0 none (some exEmptyCr) =
      createEmptyAnalysis :=
  (C9_analyzeData_null (mkInsightEngine none) fmt0 fmt0 none (some exEmptyCr)
    (Or.inl rfl)).1

/-- C10: the constructor coalesces any falsy `spikeThreshold` option (0, null
/ undefined, omitted) to the default 1.5, so `analyzeData` never runs spike
detection with a zero threshold even for an explicit `spikeThreshold: 0`;
calling `detectSpikes` directly applies its default 1.5 only for an
`undefined` argument, so an explicit 0 is used as-is (and detects a spike on
`[0,1,0]` that the 1.5 threshold misses). -/
theorem C10_spikeThreshold :
    ((mkInsightEngine none).spikeThreshold = 1.5 ∧
      (mkInsightEngine (some 0)).spikeThreshold = 1.5 ∧
      ∀ t : ℚ, t ≠ 0 → (mkInsightEngine (some t)).spikeThreshold = t) ∧
    (∀ s : TimeSeries, detectSpikesCall s none = detectSpikes s 1.5 ∧
      ∀ q : ℚ, detectSpikesCall s (some q) = detectSpikes s q) ∧
    (analyzeData (mkInsightEngine (some 0)) fmt0 fmt0 (some exMild) (some exMild)).spikes
      = [] ∧
    detectSpikes exMild 0 = [⟨"M", 1000, 1, 0, 141/100⟩] := by
  have hnospike : detectSpikes exMild (3/2) = [] := by
    norm_num [detectSpikes, spikeCheck, exMild, mkSeries, List.range', zAbove, List.getD,
      List.filterMap_cons, List.filterMap_nil]
  have hzero : detectSpikes exMild 0 = [⟨"M", 1000, 1, 0, 141/100⟩] := by
    norm_num [detectSpikes, spikeCheck, exMild, mkSeries, List.range', zAbove, List.getD,
      zRound100, jsRound, ratSqrtFloor, List.filterMap_cons, List.filterMap_nil,
      show isqrt (Int.toNat 80000) = 282 from isqrt_eq 80000 282 (by norm_num) (by norm_num),
      isqrt_eq 80000 282 (by norm_num) (by norm_num)]
  refine ⟨⟨rfl, by norm_num [mkInsightEngine], ?_⟩, ?_, ?_, hzero⟩
  · intro t ht
    simp [mkInsightEngine, ht]
  · intro s
    exact ⟨rfl, fun q => rfl⟩
  · have hthr : (mkInsightEngine (some 0)).spikeThreshold = 3/2 := by
      norm_num [mkInsightEngine]
    simp only [analyzeData, hthr, hnospike]
    rfl

/-- Witness for C10 at a concrete nonzero option: `spikeThreshold: 2` is
kept as 2 by the constructor. -/
theorem C10_witness : (mkInsightEngine (some 2)).spikeThreshold = 2 :=
  C10_spikeThreshold.1.2.2 2 (by norm_num)

/-- C2 (amended): canonicalization never aborts on a bad entry — each loop is
the entry-wise partial extraction mapped over the input, so a failing entry
is dropped silently and the rest still contribute.  For the crypto feed an
entry is kept exactly when it is an array whose first two elements are
numbers.  For the weather feed an entry is skipped exactly when its time
string is falsy or its temperature is null/undefined; an unparsable time
string (`NaN` timestamp) is NOT skipped — the point is retained (see the
counterexample), contrary to the original claim. -/
theorem C2_amended_skip :
    (∀ (fmt : ℚ → String) (l : List Jv),
      cryptoLoop fmt l = l.filterMap (cryptoPointOf fmt)) ∧
    (∀ (fmt : ℚ → String) (p : Jv),
      (cryptoPointOf fmt p).isSome = true ↔
        ∃ t v rest, p = Jv.arr (Jv.num t :: Jv.num v :: rest)) ∧
    (∀ (parse : Jv → Option ℚ) (fmtW : Option ℚ → String) (times temps : List Jv),
      weatherLoop parse fmtW times temps =
        (times.zip temps).filterMap (fun tv => weatherPointOf parse fmtW tv.1 tv.2)) ∧
    (∀ (parse : Jv → Option ℚ) (fmtW : Option ℚ → String) (timeStr temp : Jv),
      weatherPointOf parse fmtW timeStr temp = none ↔
        (timeStr.truthy = false ∨ temp.isNull = true)) := by
  refine ⟨?_, ?_, ?_, ?_⟩
  · intro fmt l
    induction l with
    | nil => rfl
    | cons p rest ih =>
      rcases p with q | str | b | _ | elems
      · simp [cryptoLoop, cryptoPointOf, ih]
      · simp [cryptoLoop, cryptoPointOf, ih]
      · simp [cryptoLoop, cryptoPointOf, ih]
      · simp [cryptoLoop, cryptoPointOf, ih]
      · rcases elems with _ | ⟨a, _ | ⟨b, tail⟩⟩
        · simp [cryptoLoop, cryptoPointOf, ih]
        · rcases a <;> simp [cryptoLoop, cryptoPointOf, ih, List.getD]
        · rcases a <;> rcases b <;>
            simp [cryptoLoop, cryptoPointOf, ih, List.getD]
  · intro fmt p
    rcases p with q | str | b | _ | elems
    · simp [cryptoPointOf]
    · simp [cryptoPointOf]
    · simp [cryptoPointOf]
    · simp [cryptoPointOf]
    · rcases elems with _ | ⟨a, _ | ⟨b, tail⟩⟩
      · simp [cryptoPointOf]
      · rcases a <;> simp [cryptoPointOf]
      · rcases a <;> rcases b <;> simp [cryptoPointOf]
  · intro parse fmtW times
    induction times with
    | nil => intro temps; cases temps <;> rfl
    | cons timeStr ts ih =>
      intro temps
      cases temps with
      | nil => rfl
      | cons temp rest =>
        by_cases h : timeStr.truthy = false ∨ temp.isNull = true
        · simp [weatherLoop, weatherPointOf, h, List.zip_cons_cons, ih]
        · simp [weatherLoop, weatherPointOf, h, List.zip_cons_cons, ih]
  · intro parse fmtW timeStr temp
    rw [weatherPointOf]
    split_ifs with h
    · simpa using h
    · simpa using h

/-- C2, counterexample: a weather entry with a truthy but unparsable time
string (`new Date(timeStr).getTime()` = `NaN`, modelled by a parse function
returning `none`) is NOT skipped: the point is retained with a `NaN`
timestamp, refuting "skips a candidate entry exactly when its extraction
fails (… unparsable, NaN timestamp)". -/
theorem C2_counterexample :
    weatherLoop parseNone ofmt0 [Jv.str "not-a-date"] [Jv.num 5] =
      [⟨none, Jv.num 5, Jv.num 5, ""⟩] ∧
    weatherLoop parseNone ofmt0 [Jv.str "not-a-date"] [Jv.num 5] ≠ [] := by
  refine ⟨rfl, ?_⟩
  intro h
  rw [show weatherLoop parseNone ofmt0 [Jv.str "not-a-date"] [Jv.num 5] =
      [⟨none, Jv.num 5, Jv.num 5, ""⟩] from rfl] at h
  exact List.noConfusion h

theorem alignDataPointsLoop_nil (l1 : List DataPoint) : alignDataPointsLoop [] l1 = [] := by
  induction l1 with
  | nil => rfl
  | cons p rest ih => simp [alignDataPointsLoop, findClosest, ih]

theorem corrSums_sq1_nonneg (v1 v2 : List ℚ) : 0 ≤ (corrSums v1 v2).2.1 := by
  simp only [corrSums]
  exact Finset.sum_nonneg fun i _ => mul_self_nonneg _

theorem corrSums_sq2_nonneg (v1 v2 : List ℚ) : 0 ≤ (corrSums v1 v2).2.2 := by
  simp only [corrSums]
  exact Finset.sum_nonneg fun i _ => mul_self_nonneg _

/-- Normal form of `calculateCorrelation`: the two degenerate guards
(an empty series, fewer than 2 aligned pairs) collapse into the single
pair-count guard, since an empty series aligns no pairs. -/
theorem calculateCorrelation_eq (s1 s2 : TimeSeries) :
    calculateCorrelation s1 s2 =
      if (alignDataPoints s1.dataPoints s2.dataPoints).length < 2 then ⟨0, "none", "none"⟩
      else
        if (corrSums ((alignDataPoints s1.dataPoints s2.dataPoints).map (·.value1))
              ((alignDataPoints s1.dataPoints s2.dataPoints).map (·.value2))).2.1 *
            (corrSums ((alignDataPoints s1.dataPoints s2.dataPoints).map (·.value1))
              ((alignDataPoints s1.dataPoints s2.dataPoints).map (·.value2))).2.2 = 0
        then ⟨0, "none", "none"⟩
        else
          ⟨(roundCoeff1000
              ((corrSums ((alignDataPoints s1.dataPoints s2.dataPoints).map (·.value1))
                ((alignDataPoints s1.dataPoints s2.dataPoints).map (·.value2))).1)
              ((corrSums ((alignDataPoints s1.dataPoints s2.dataPoints).map (·.value1))
                  ((alignDataPoints s1.dataPoints s2.dataPoints).map (·.value2))).2.1 *
                (corrSums ((alignDataPoints s1.dataPoints s2.dataPoints).map (·.value1))
                  ((alignDataPoints s1.dataPoints s2.dataPoints).map (·.value2))).2.2) : ℚ) /
              1000,
            strengthOf
              ((corrSums ((alignDataPoints s1.dataPoints s2.dataPoints).map (·.value1))
                ((alignDataPoints s1.dataPoints s2.dataPoints).map (·.value2))).1)
              ((corrSums ((alignDataPoints s1.dataPoints s2.dataPoints).map (·.value1))
                  ((alignDataPoints s1.dataPoints s2.dataPoints).map (·.value2))).2.1 *
                (corrSums ((alignDataPoints s1.dataPoints s2.dataPoints).map (·.value1))
                  ((alignDataPoints s1.dataPoints s2.dataPoints).map (·.value2))).2.2),
            dirOf
              ((corrSums ((alignDataPoints s1.dataPoints s2.dataPoints).map (·.value1))
                ((alignDataPoints s1.dataPoints s2.dataPoints).map (·.value2))).1)
              ((corrSums ((alignDataPoints s1.dataPoints s2.dataPoints).map (·.value1))
                  ((alignDataPoints s1.dataPoints s2.dataPoints).map (·.value2))).2.1 *
                (corrSums ((alignDataPoints s1.dataPoints s2.dataPoints).map (·.value1))
                  ((alignDataPoints s1.dataPoints s2.dataPoints).map (·.value2))).2.2)⟩ := by
  by_cases he : s1.dataPoints.length = 0 ∨ s2.dataPoints.length = 0
  · have hp : alignDataPoints s1.dataPoints s2.dataPoints = [] := by
      rcases he with h | h
      · rw [List.length_eq_zero] at h
        rw [alignDataPoints, h]
        rfl
      · rw [List.length_eq_zero] at h
        rw [alignDataPoints, h]
        exact alignDataPointsLoop_nil _
    simp only [calculateCorrelation]
    rw [if_pos he, hp]
    norm_num
  · simp only [calculateCorrelation]
    rw [if_neg he]

/-- C3: `calculateCorrelation` returns the zero/none record whenever fewer
than 2 aligned pairs exist; otherwise, with Pearson sums (num, sq1, sq2) over
the aligned values, it returns r = num/√(sq1·sq2) rounded to 3 decimals
(0 when the denominator is 0), strength classified on |r| by the ≥0.7/≥0.4/
≥0.1 bands and direction by the strict ±0.1 thresholds; in particular the
concrete pair with r exactly 0.1 yields strength "weak" and direction
"none". -/
theorem C3_calculateCorrelation (s1 s2 : TimeSeries) :
    ((alignDataPoints s1.dataPoints s2.dataPoints).length < 2 →
      calculateCorrelation s1 s2 = ⟨0, "none", "none"⟩) ∧
    (∀ num sq1 sq2 : ℚ,
      (num, sq1, sq2) =
        corrSums ((alignDataPoints s1.dataPoints s2.dataPoints).map (·.value1))
          ((alignDataPoints s1.dataPoints s2.dataPoints).map (·.value2)) →
      2 ≤ (alignDataPoints s1.dataPoints s2.dataPoints).length →
      (sq1 * sq2 = 0 → calculateCorrelation s1 s2 = ⟨0, "none", "none"⟩) ∧
      (sq1 * sq2 ≠ 0 →
        calculateCorrelation s1 s2 =
          ⟨((⌊1000 * ((num : ℝ) / Real.sqrt ((sq1 : ℝ) * (sq2 : ℝ))) + 1/2⌋ : ℤ) : ℚ) / 1000,
            (if (0.7 : ℝ) ≤ |(num : ℝ) / Real.sqrt ((sq1 : ℝ) * (sq2 : ℝ))| then "strong"
             else if (0.4 : ℝ) ≤ |(num : ℝ) / Real.sqrt ((sq1 : ℝ) * (sq2 : ℝ))| then "moderate"
             else if (0.1 : ℝ) ≤ |(num : ℝ) / Real.sqrt ((sq1 : ℝ) * (sq2 : ℝ))| then "weak"
             else "none"),
            (if (num : ℝ) / Real.sqrt ((sq1 : ℝ) * (sq2 : ℝ)) > 0.1 then "positive"
             else if (num : ℝ) / Real.sqrt ((sq1 : ℝ) * (sq2 : ℝ)) < -0.1 then "negative"
             else "none")⟩)) ∧
    calculateCorrelation exR1 exR2 = ⟨1/10, "weak", "none"⟩ := by
  refine ⟨?_, ?_, ?_⟩
  · intro h
    rw [calculateCorrelation_eq, if_pos h]
  · intro num sq1 sq2 hcs h2
    have hsq1 : 0 ≤ sq1 := by
      have := corrSums_sq1_nonneg ((alignDataPoints s1.dataPoints s2.dataPoints).map (·.value1))
        ((alignDataPoints s1.dataPoints s2.dataPoints).map (·.value2))
      rw [← hcs] at this
      exact this
    have hsq2 : 0 ≤ sq2 := by
      have := corrSums_sq2_nonneg ((alignDataPoints s1.dataPoints s2.dataPoints).map (·.value1))
        ((alignDataPoints s1.dataPoints s2.dataPoints).map (·.value2))
      rw [← hcs] at this
      exact this
    constructor
    · intro hD0
      rw [calculateCorrelation_eq, if_neg (not_lt.mpr h2), ← hcs]
      rw [if_pos hD0]
    · intro hD
      have hDpos : 0 < sq1 * sq2 := lt_of_le_of_ne (mul_nonneg hsq1 hsq2) (Ne.symm hD)
      have hcast : ((sq1 * sq2 : ℚ) : ℝ) = (sq1 : ℝ) * (sq2 : ℝ) := by push_cast; ring
      rw [calculateCorrelation_eq, if_neg (not_lt.mpr h2), ← hcs]
      rw [if_neg hD]
      have h1 : (roundCoeff1000 num (sq1 * sq2) : ℤ) =
          ⌊1000 * ((num : ℝ) / Real.sqrt ((sq1 : ℝ) * (sq2 : ℝ))) + 1/2⌋ := by
        rw [roundCoeff1000_eq num _ hDpos, hcast]
      have hstr : strengthOf num (sq1 * sq2) =
          (if (0.7 : ℝ) ≤ |(num : ℝ) / Real.sqrt ((sq1 : ℝ) * (sq2 : ℝ))| then "strong"
           else if (0.4 : ℝ) ≤ |(num : ℝ) / Real.sqrt ((sq1 : ℝ) * (sq2 : ℝ))| then "moderate"
           else if (0.1 : ℝ) ≤ |(num : ℝ) / Real.sqrt ((sq1 : ℝ) * (sq2 : ℝ))| then "weak"
           else "none") := by
        rw [strengthOf_eq num _ hDpos, hcast]
      have hdir : dirOf num (sq1 * sq2) =
          (if (num : ℝ) / Real.sqrt ((sq1 : ℝ) * (sq2 : ℝ)) > 0.1 then "positive"
           else if (num : ℝ) / Real.sqrt ((sq1 : ℝ) * (sq2 : ℝ)) < -0.1 then "negative"
           else "none") := by
        rw [dirOf_eq num _ hDpos, hcast]
      rw [h1, hstr, hdir]
  · norm_num [calculateCorrelation, exR1, exR2, mkSeries, alignDataPoints,
      alignDataPointsLoop, findClosest, List.foldl_cons, List.foldl_nil, closerStep,
      corrSums, Finset.sum_range_succ, Finset.sum_range_zero, List.getD, roundCoeff1000,
      ratSqrtFloor, ratSqrtCeil, strengthOf, dirOf,
      show isqrt (Int.toNat 40000) = 200 from isqrt_eq 40000 200 (by norm_num) (by norm_num),
      isqrt_eq 40000 200 (by norm_num) (by norm_num)]

/-- C3, witness: the degenerate clause applied to two empty series (0 aligned
pairs). -/
theorem C3_witness : calculateCorrelation exEmptyAQ exEmptyCr = ⟨0, "none", "none"⟩ :=
  (C3_calculateCorrelation exEmptyAQ exEmptyCr).1
    (by norm_num [alignDataPoints, alignDataPointsLoop, exEmptyAQ, exEmptyCr,
      createEmptyTimeSeries])

theorem spikeVariance_nonneg (s : TimeSeries) : 0 ≤ spikeVariance s := by
  rw [spikeVariance]
  apply div_nonneg
  · apply List.sum_nonneg
    intro x hx
    obtain ⟨v, _, rfl⟩ := List.mem_map.mp hx
    positivity
  · positivity

/-- The loop body of `detectSpikes` succeeds exactly on the z-score and
local-extremum conditions, producing the record with the real-semantics
roundings (for positive variance). -/
theorem spikeCheck_iff (src : String) (dps : List DataPoint) (mean vr t : ℚ)
    (i : ℕ) (hvar : 0 < vr) (spk : Spike) :
    spikeCheck src dps mean vr t i = some spk ↔
      ((t : ℝ) < |((dps.getD i default).value : ℝ) - (mean : ℝ)| / Real.sqrt (vr : ℝ)) ∧
      (((dps.getD (i - 1) default).value < (dps.getD i default).value ∧
          (dps.getD (i + 1) default).value < (dps.getD i default).value) ∨
        ((dps.getD i default).value < (dps.getD (i - 1) default).value ∧
          (dps.getD i default).value < (dps.getD (i + 1) default).value)) ∧
      spk = ⟨src, (dps.getD i default).timestamp, (dps.getD i default).originalValue,
        ((⌊(if (dps.getD (i - 1) default).value ≠ 0 then
              ((dps.getD i default).value - (dps.getD (i - 1) default).value) /
                |(dps.getD (i - 1) default).value| * 100
            else 0) * 100 + 1/2⌋ : ℤ) : ℚ) / 100,
        ((⌊100 * (|((dps.getD i default).value : ℝ) - (mean : ℝ)| /
            Real.sqrt (vr : ℝ)) + 1/2⌋ : ℤ) : ℚ) / 100⟩ := by
  have habs : |((dps.getD i default).value : ℝ) - (mean : ℝ)| =
      |(((dps.getD i default).value - mean : ℚ) : ℝ)| := by
    push_cast
    rfl
  simp only [spikeCheck]
  by_cases hz : zAbove ((dps.getD i default).value - mean) vr t = true
  · have hzr : (t : ℝ) <
        |((dps.getD i default).value : ℝ) - (mean : ℝ)| / Real.sqrt (vr : ℝ) := by
      rw [habs]
      exact (zAbove_iff _ _ _ hvar).mp hz
    rw [if_pos hz]
    by_cases hext : ((dps.getD (i - 1) default).value < (dps.getD i default).value ∧
        (dps.getD (i + 1) default).value < (dps.getD i default).value) ∨
        ((dps.getD i default).value < (dps.getD (i - 1) default).value ∧
          (dps.getD i default).value < (dps.getD (i + 1) default).value)
    · rw [if_pos hext]
      have hrec :
          (⟨src, (dps.getD i default).timestamp, (dps.getD i default).originalValue,
            (jsRound ((if (dps.getD (i - 1) default).value ≠ 0 then
                ((dps.getD i default).value - (dps.getD (i - 1) default).value) /
                  |(dps.getD (i - 1) default).value| * 100
              else 0) * 100) : ℚ) / 100,
            (zRound100 ((dps.getD i default).value - mean) vr : ℚ) / 100⟩ : Spike) =
          ⟨src, (dps.getD i default).timestamp, (dps.getD i default).originalValue,
            ((⌊(if (dps.getD (i - 1) default).value ≠ 0 then
                  ((dps.getD i default).value - (dps.getD (i - 1) default).value) /
                    |(dps.getD (i - 1) default).value| * 100
                else 0) * 100 + 1/2⌋ : ℤ) : ℚ) / 100,
            ((⌊100 * (|((dps.getD i default).value : ℝ) - (mean : ℝ)| /
                Real.sqrt (vr : ℝ)) + 1/2⌋ : ℤ) : ℚ) / 100⟩ := by
        rw [jsRound, zRound100_eq _ _ hvar, habs]
      rw [hrec]
      constructor
      · intro h
        exact ⟨hzr, hext, (Option.some_inj.mp h).symm⟩
      · rintro ⟨-, -, rfl⟩
        rfl
    · rw [if_neg hext]
      constructor
      · intro h
        exact Option.noConfusion h
      · rintro ⟨-, hext2, -⟩
        exact absurd hext2 hext
  · rw [if_neg hz]
    constructor
    · intro h
      exact Option.noConfusion h
    · rintro ⟨hcond, -, -⟩
      exact absurd ((zAbove_iff _ _ _ hvar).mpr (by rw [← habs]; exact hcond)) hz

/-- Normal form of `detectSpikes` through the named mean/variance. -/
theorem detectSpikes_eq (s : TimeSeries) (t : ℚ) :
    detectSpikes s t =
      if s.dataPoints.length < 3 then []
      else if spikeVariance s < 0.00000001 then []
      else (List.range' 1 (s.dataPoints.length - 2)).filterMap
        (spikeCheck s.sourceName s.dataPoints (spikeMean s) (spikeVariance s) t) := rfl

/-- C4: `detectSpikes` returns `[]` below 3 points or when the population
standard deviation is below 0.0001; otherwise it returns exactly the interior
points (indices 1..n-2) whose z-score strictly exceeds the threshold and that
are strict local extrema versus both neighbors, emitted as
{source, timestamp, value: originalValue, percentChange rounded to 2
decimals (0 when the previous value is 0), zScore rounded to 2 decimals};
on values [1,1,1,10,1,1,1] with threshold 1.5 it yields exactly one spike at
index 3 with percentChange 900. -/
theorem C4_detectSpikes (s : TimeSeries) (t : ℚ) :
    (s.dataPoints.length < 3 → detectSpikes s t = []) ∧
    (3 ≤ s.dataPoints.length → Real.sqrt ((spikeVariance s : ℚ) : ℝ) < 0.0001 →
      detectSpikes s t = []) ∧
    (3 ≤ s.dataPoints.length → ¬ Real.sqrt ((spikeVariance s : ℚ) : ℝ) < 0.0001 →
      ∀ spk : Spike, spk ∈ detectSpikes s t ↔
        ∃ i, (1 ≤ i ∧ i + 1 < s.dataPoints.length) ∧
          (((t : ℝ) < |((s.dataPoints.getD i default).value : ℝ) - ((spikeMean s : ℚ) : ℝ)| /
              Real.sqrt ((spikeVariance s : ℚ) : ℝ)) ∧
          (((s.dataPoints.getD (i - 1) default).value < (s.dataPoints.getD i default).value ∧
              (s.dataPoints.getD (i + 1) default).value < (s.dataPoints.getD i default).value) ∨
            ((s.dataPoints.getD i default).value < (s.dataPoints.getD (i - 1) default).value ∧
              (s.dataPoints.getD i default).value < (s.dataPoints.getD (i + 1) default).value)) ∧
          spk = ⟨s.sourceName, (s.dataPoints.getD i default).timestamp,
            (s.dataPoints.getD i default).originalValue,
            ((⌊(if (s.dataPoints.getD (i - 1) default).value ≠ 0 then
                  ((s.dataPoints.getD i default).value -
                      (s.dataPoints.getD (i - 1) default).value) /
                    |(s.dataPoints.getD (i - 1) default).value| * 100
                else 0) * 100 + 1/2⌋ : ℤ) : ℚ) / 100,
            ((⌊100 * (|((s.dataPoints.getD i default).value : ℝ) - ((spikeMean s : ℚ) : ℝ)| /
                Real.sqrt ((spikeVariance s : ℚ) : ℝ)) + 1/2⌋ : ℤ) : ℚ) / 100⟩)) ∧
    detectSpikes exSpike 1.5 = [⟨"S", 3000, 10, 900, 245/100⟩] := by
  refine ⟨?_, ?_, ?_, ?_⟩
  · intro h
    rw [detectSpikes_eq, if_pos h]
  · intro h3 hsd
    rw [detectSpikes_eq, if_neg (not_lt.mpr h3),
      if_pos ((stdDev_cut_iff (spikeVariance s)).mp hsd)]
  · intro h3 hsd spk
    have hvlt : ¬ spikeVariance s < 0.00000001 :=
      fun hc => hsd ((stdDev_cut_iff (spikeVariance s)).mpr hc)
    have hvarpos : 0 < spikeVariance s := by
      rcases lt_or_le 0 (spikeVariance s) with h | h
      · exact h
      · exact absurd (by linarith : spikeVariance s < 0.00000001) hvlt
    rw [detectSpikes_eq, if_neg (not_lt.mpr h3), if_neg hvlt, List.mem_filterMap]
    refine exists_congr fun i => ?_
    rw [List.mem_range'_1, spikeCheck_iff s.sourceName s.dataPoints (spikeMean s)
      (spikeVariance s) t i hvarpos spk]
    constructor
    · rintro ⟨⟨h1i, h2i⟩, hc⟩
      exact ⟨⟨h1i, by omega⟩, hc⟩
    · rintro ⟨⟨h1i, h2i⟩, hc⟩
      exact ⟨⟨h1i, by omega⟩, hc⟩
  · norm_num [detectSpikes, spikeCheck, exSpike, mkSeries, List.range', zAbove, List.getD,
      zRound100, jsRound, ratSqrtFloor, List.filterMap_cons, List.filterMap_nil,
      show isqrt (Int.toNat 240000) = 489 from isqrt_eq 240000 489 (by norm_num) (by norm_num),
      isqrt_eq 240000 489 (by norm_num) (by norm_num)]

/-- C4, witness: the short-series clause applied to an empty series. -/
theorem C4_witness : detectSpikes exEmptyAQ (3/2) = [] :=
  (C4_detectSpikes exEmptyAQ (3/2)).1 (by norm_num [exEmptyAQ, createEmptyTimeSeries])

theorem alignPairsLoop_eq_filterMap (tol : ℚ) (pts2 : List DataPoint) :
    ∀ pts1 : List DataPoint,
      alignPairsLoop tol pts2 pts1 = pts1.filterMap (fun point1 =>
        (findClosest point1.timestamp tol pts2).map (fun closest =>
          ⟨point1.timestamp, point1.value, closest.1.value, point1.originalValue,
            closest.1.originalValue, |point1.timestamp - closest.1.timestamp|⟩)) := by
  intro pts1
  induction pts1 with
  | nil => rfl
  | cons p rest ih =>
    rcases h : findClosest p.timestamp tol pts2 with _ | c
    · rw [alignPairsLoop, h, List.filterMap_cons]
      simp only [h, Option.map_none']
      exact ih
    · rw [alignPairsLoop, h, List.filterMap_cons]
      simp only [h, Option.map_some']
      rw [ih]

/-- Full specification of a successful closest-point scan: the recorded diff
is the point's diff, it is within tolerance, minimal over the whole second
series, and the chosen point is the first to achieve it in stored order. -/
theorem findClosest_some_spec (t tol : ℚ) (pts : List DataPoint) (c : DataPoint) (d : ℚ)
    (h : findClosest t tol pts = some (c, d)) :
    d = |t - c.timestamp| ∧ d ≤ tol ∧ (∀ q ∈ pts, d ≤ |t - q.timestamp|) ∧
      ∃ j, ∃ hj : j < pts.length, pts[j] = c ∧
        ∀ k (hk : k < j), d < |t - (pts[k]).timestamp| := by
  obtain ⟨hdtol, hmin, -, hfrom⟩ := closer_foldl_min t tol pts none c d (by simp) h
  have hd : d = |t - c.timestamp| := by
    rcases hfrom with habs | ⟨-, hd⟩
    · exact absurd habs (by simp)
    · exact hd
  refine ⟨hd, hdtol, ?_, ?_⟩
  · intro q hq
    by_cases hqtol : |t - q.timestamp| ≤ tol
    · exact hmin q hq hqtol
    · exact le_of_lt (lt_of_le_of_lt hdtol (not_le.mp hqtol))
  · rcases closer_foldl_first t tol pts none c d h with habs | ⟨j, hj, hpj, -, -, -, hfirst⟩
    · exact absurd habs (by simp)
    · exact ⟨j, hj, hpj, hfirst⟩

/-- C6: for every first-series point, `alignTimeSeriesByTimestamp` emits (in
first-series order) one pair exactly when an in-tolerance second-series point
exists, pairing it with the second-series point of minimum absolute timestamp
difference — first in stored order on ties — with `timeDiff` equal to that
difference, hence `timeDiff ≤ toleranceMs`; a point with no in-tolerance
match yields no pair; in the t=0 vs {3,700,000; 3,500,000} scenario at
tolerance 3,600,000 the single pair uses the 3,500,000 point. -/
theorem C6_alignTimeSeries (s1 s2 : TimeSeries) (tol : ℚ) :
    ((alignTimeSeriesByTimestamp (some s1) (some s2) tol).alignedPairs =
      s1.dataPoints.filterMap (fun point1 =>
        (findClosest point1.timestamp tol s2.dataPoints).map (fun closest =>
          ⟨point1.timestamp, point1.value, closest.1.value, point1.originalValue,
            closest.1.originalValue, |point1.timestamp - closest.1.timestamp|⟩))) ∧
    (∀ t : ℚ, findClosest t tol s2.dataPoints = none ↔
      ∀ q ∈ s2.dataPoints, tol < |t - q.timestamp|) ∧
    (∀ (t : ℚ) (c : DataPoint) (d : ℚ), findClosest t tol s2.dataPoints = some (c, d) →
      d = |t - c.timestamp| ∧ d ≤ tol ∧ (∀ q ∈ s2.dataPoints, d ≤ |t - q.timestamp|) ∧
        ∃ j, ∃ hj : j < s2.dataPoints.length, s2.dataPoints[j] = c ∧
          ∀ k (hk : k < j), d < |t - (s2.dataPoints[k]).timestamp|) ∧
    (∀ pair ∈ (alignTimeSeriesByTimestamp (some s1) (some s2) tol).alignedPairs,
      pair.timeDiff ≤ tol) ∧
    (alignTimeSeriesByTimestamp (some exT1) (some exT2) 3600000).alignedPairs =
      [⟨0, 1, 3, 1, 3, 3500000⟩] := by
  have hpairs : (alignTimeSeriesByTimestamp (some s1) (some s2) tol).alignedPairs =
      s1.dataPoints.filterMap (fun point1 =>
        (findClosest point1.timestamp tol s2.dataPoints).map (fun closest =>
          ⟨point1.timestamp, point1.value, closest.1.value, point1.originalValue,
            closest.1.originalValue, |point1.timestamp - closest.1.timestamp|⟩)) := by
    rw [alignTimeSeriesByTimestamp]
    by_cases he : s1.dataPoints.length = 0 ∨ s2.dataPoints.length = 0
    · rw [if_pos he]
      rcases he with h | h
      · rw [List.length_eq_zero] at h
        rw [h]
        rfl
      · rw [List.length_eq_zero] at h
        rw [h]
        symm
        rw [List.filterMap_eq_nil]
        intro p1 hp1
        rw [show findClosest p1.timestamp tol [] = none from rfl]
        rfl
    · rw [if_neg he]
      exact alignPairsLoop_eq_filterMap tol s2.dataPoints s1.dataPoints
  refine ⟨hpairs, ?_, ?_, ?_, ?_⟩
  · intro t
    exact findClosest_eq_none_iff t tol s2.dataPoints
  · intro t c d h
    exact findClosest_some_spec t tol s2.dataPoints c d h
  · intro pair hpair
    rw [hpairs, List.mem_filterMap] at hpair
    obtain ⟨p1, -, hp1⟩ := hpair
    rcases hc : findClosest p1.timestamp tol s2.dataPoints with _ | cd
    · rw [hc] at hp1
      exact absurd hp1 (by simp)
    · rw [hc, Option.map_some', Option.some_inj] at hp1
      obtain ⟨hd, hdtol, -, -⟩ := findClosest_some_spec p1.timestamp tol s2.dataPoints
        cd.1 cd.2 (by rw [hc])
      rw [← hp1]
      simpa [← hd] using hdtol
  · norm_num [alignTimeSeriesByTimestamp, alignPairsLoop, findClosest, closerStep,
      List.foldl_cons, List.foldl_nil, exT1, exT2, mkSeries]

/-- C6, witness: the some-case specification applied concretely — the scan of
`exT2` from t = 0 returns its second stored point with diff 3,500,000. -/
theorem C6_witness :
    (3500000 : ℚ) = |0 - (⟨3500000, 3, 3, ""⟩ : DataPoint).timestamp| ∧
      (3500000 : ℚ) ≤ 3600000 ∧
      (∀ q ∈ exT2.dataPoints, (3500000 : ℚ) ≤ |0 - q.timestamp|) ∧
      ∃ j, ∃ hj : j < exT2.dataPoints.length,
        exT2.dataPoints[j] = ⟨3500000, 3, 3, ""⟩ ∧
        ∀ k (hk : k < j), (3500000 : ℚ) < |0 - (exT2.dataPoints[k]).timestamp| :=
  (C6_alignTimeSeries exT1 exT2 3600000).2.2.1 0 ⟨3500000, 3, 3, ""⟩ 3500000
    (by norm_num [findClosest, closerStep, List.foldl_cons, List.foldl_nil, exT2, mkSeries])

/-! ## Lemmas: the canonicalization pipeline -/

theorem foldl_min_le_init (vs : List ℚ) : ∀ init : ℚ, vs.foldl min init ≤ init := by
  induction vs with
  | nil => intro init; exact le_refl _
  | cons a r ih =>
    intro init
    calc r.foldl min (min init a) ≤ min init a := ih _
    _ ≤ init := min_le_left _ _

theorem foldl_min_le (vs : List ℚ) : ∀ (v x : ℚ), x ∈ v :: vs → vs.foldl min v ≤ x := by
  induction vs with
  | nil =>
    intro v x hx
    obtain rfl : x = v := by simpa using hx
    exact le_refl _
  | cons a r ih =>
    intro v x hx
    rcases List.mem_cons.mp hx with rfl | hx2
    · calc r.foldl min (min x a) ≤ min x a := foldl_min_le_init _ _
      _ ≤ x := min_le_left _ _
    · rcases List.mem_cons.mp hx2 with rfl | hx3
      · calc r.foldl min (min v x) ≤ min v x := foldl_min_le_init _ _
        _ ≤ x := min_le_right _ _
      · exact ih (min v a) x (List.mem_cons_of_mem _ hx3)

theorem le_foldl_max_init (vs : List ℚ) : ∀ init : ℚ, init ≤ vs.foldl max init := by
  induction vs with
  | nil => intro init; exact le_refl _
  | cons a r ih =>
    intro init
    calc init ≤ max init a := le_max_left _ _
    _ ≤ r.foldl max (max init a) := ih _

theorem le_foldl_max (vs : List ℚ) : ∀ (v x : ℚ), x ∈ v :: vs → x ≤ vs.foldl max v := by
  induction vs with
  | nil =>
    intro v x hx
    obtain rfl : x = v := by simpa using hx
    exact le_refl _
  | cons a r ih =>
    intro v x hx
    rcases List.mem_cons.mp hx with rfl | hx2
    · calc x ≤ max x a := le_max_left _ _
      _ ≤ r.foldl max (max x a) := le_foldl_max_init _ _
    · rcases List.mem_cons.mp hx2 with rfl | hx3
      · calc x ≤ max v x := le_max_right _ _
        _ ≤ r.foldl max (max v x) := le_foldl_max_init _ _
      · exact ih (max v a) x (List.mem_cons_of_mem _ hx3)

theorem calculateMetadata_count (values : List ℚ) (unit : String) :
    (calculateMetadata values unit).count = values.length := by
  cases values <;> rfl

theorem calculateMetadata_mean (values : List ℚ) (unit : String) :
    (calculateMetadata values unit).mean = values.sum / (values.length : ℚ) := by
  cases values with
  | nil => simp [calculateMetadata]
  | cons v vs => rfl

theorem calculateMetadata_min_le (values : List ℚ) (unit : String) (x : ℚ) (hx : x ∈ values) :
    (calculateMetadata values unit).min ≤ x := by
  cases values with
  | nil => exact absurd hx (List.not_mem_nil x)
  | cons v vs => exact foldl_min_le vs v x hx

theorem calculateMetadata_le_max (values : List ℚ) (unit : String) (x : ℚ) (hx : x ∈ values) :
    x ≤ (calculateMetadata values unit).max := by
  cases values with
  | nil => exact absurd hx (List.not_mem_nil x)
  | cons v vs => exact le_foldl_max vs v x hx

theorem limitDataPoints_length (l : List DataPoint) (m : ℕ) :
    (limitDataPoints l m).length = min l.length m := by
  rw [limitDataPoints]
  split_ifs with h
  · rw [List.length_drop]
    omega
  · omega

theorem limitDataPoints_sublist (l : List DataPoint) (m : ℕ) :
    (limitDataPoints l m).Sublist l := by
  rw [limitDataPoints]
  split_ifs with h
  · exact List.drop_sublist _ _
  · exact List.Sublist.refl _

/-- Every point created by the air-quality extraction loop has
`value = originalValue`. -/
theorem aqLoop_value_eq (fmt : ℚ → String) :
    ∀ items : List (Option AQItem), ∀ p ∈ aqLoop fmt items, p.value = p.originalValue := by
  intro items
  induction items with
  | nil =>
    intro p hp
    exact absurd hp (List.not_mem_nil p)
  | cons it rest ih =>
    intro p hp
    rcases it with _ | item
    · exact ih p hp
    · rcases hdt : item.dt with _ | dt
      · rw [aqLoop, hdt] at hp
        rcases hmain : item.main with _ | m <;> rw [hmain] at hp <;> exact ih p hp
      · rcases hmain : item.main with _ | m
        · rw [aqLoop, hdt, hmain] at hp
          exact ih p hp
        · rw [aqLoop, hdt, hmain] at hp
          dsimp only at hp
          by_cases h0 : dt = 0
          · rw [if_pos h0] at hp
            exact ih p hp
          · rw [if_neg h0] at hp
            rcases haqi : m.aqi with _ | aqi
            · rw [haqi] at hp
              exact ih p hp
            · rw [haqi] at hp
              rcases List.mem_cons.mp hp with rfl | hmem
              · rfl
              · exact ih p hmem

/-- Normal form of `normalizeAirQuality` on a present list, with the two
pipeline stages abbreviated by hypotheses. -/
theorem normalizeAirQuality_some (fmt : ℚ → String) (list : List (Option AQItem))
    (cfg : TransformConfig) (limited : List DataPoint) (md : SeriesMetadata)
    (hl : limited = limitDataPoints (sortByTimestamp (aqLoop fmt list)) 100)
    (hm : md = calculateMetadata (limited.map (·.value)) "AQI") :
    normalizeAirQuality fmt (some list) cfg =
      ⟨"Air Quality",
        if cfg.normalize ∧ 0 < limited.length ∧ 0 < md.max - md.min then
          limited.map
            (fun dp => { dp with value := (dp.originalValue - md.min) / (md.max - md.min) })
        else limited,
        md⟩ := by
  subst hl hm
  rfl

/-- **C7**: for every payload and transform config, the canonicalized
air-quality series has its data points sorted ascending by timestamp; their
number is `min(valid extracted, 100)`; when the cap binds the points are
exactly the trailing 100 of the sorted sequence (on the nose when no
normalization fires, and always at the level of
timestamp/originalValue pairs, since normalization rewrites only `value`);
`metadata.count` equals the number of data points; metadata is computed
after limiting but before normalization, so `metadata.min ≤ originalValue ≤
metadata.max` for every point and `metadata.mean` is the arithmetic mean of
the `originalValue`s; a series with zero valid points has zeroed metadata;
and a missing payload yields the empty series. -/
theorem C7_canonical_invariants (fmt : ℚ → String) (cfg : TransformConfig) :
    (∀ list : List (Option AQItem),
      (normalizeAirQuality fmt (some list) cfg).dataPoints.Pairwise
        (fun a b => a.timestamp ≤ b.timestamp) ∧
      (normalizeAirQuality fmt (some list) cfg).dataPoints.length =
        min (aqLoop fmt list).length 100 ∧
      (100 < (aqLoop fmt list).length →
        (normalizeAirQuality fmt (some list) cfg).dataPoints.map
            (fun p => (p.timestamp, p.originalValue)) =
          ((sortByTimestamp (aqLoop fmt list)).drop ((aqLoop fmt list).length - 100)).map
            (fun p => (p.timestamp, p.originalValue))) ∧
      (cfg.normalize = false →
        (normalizeAirQuality fmt (some list) cfg).dataPoints =
          limitDataPoints (sortByTimestamp (aqLoop fmt list)) 100) ∧
      (normalizeAirQuality fmt (some list) cfg).metadata.count =
        (normalizeAirQuality fmt (some list) cfg).dataPoints.length ∧
      (∀ p ∈ (normalizeAirQuality fmt (some list) cfg).dataPoints,
        (normalizeAirQuality fmt (some list) cfg).metadata.min ≤ p.originalValue ∧
        p.originalValue ≤ (normalizeAirQuality fmt (some list) cfg).metadata.max) ∧
      (normalizeAirQuality fmt (some list) cfg).metadata.mean =
        ((normalizeAirQuality fmt (some list) cfg).dataPoints.map (·.originalValue)).sum /
          (((normalizeAirQuality fmt (some list) cfg).dataPoints.length : ℚ)) ∧
      ((aqLoop fmt list).length = 0 →
        (normalizeAirQuality fmt (some list) cfg).metadata = ⟨"AQI", 0, 0, 0, 0⟩)) ∧
    normalizeAirQuality fmt none cfg = createEmptyTimeSeries "Air Quality" "AQI" := by
  refine ⟨fun list => ?_, rfl⟩
  obtain ⟨limited, hl⟩ : ∃ l, limitDataPoints (sortByTimestamp (aqLoop fmt list)) 100 = l :=
    ⟨_, rfl⟩
  obtain ⟨md, hm⟩ : ∃ m, calculateMetadata (limited.map (·.value)) "AQI" = m := ⟨_, rfl⟩
  have hts := normalizeAirQuality_some fmt list cfg limited md hl.symm hm.symm
  have hperm : (sortByTimestamp (aqLoop fmt list)).Perm (aqLoop fmt list) :=
    List.perm_insertionSort tsLE _
  have hslen : (sortByTimestamp (aqLoop fmt list)).length = (aqLoop fmt list).length :=
    hperm.length_eq
  have hsorted : (sortByTimestamp (aqLoop fmt list)).Pairwise tsLE :=
    List.sorted_insertionSort tsLE _
  have hsub : limited.Sublist (sortByTimestamp (aqLoop fmt list)) :=
    hl ▸ limitDataPoints_sublist _ _
  have hlimlen : limited.length = min (aqLoop fmt list).length 100 := by
    rw [← hl, limitDataPoints_length, hslen]
  have hlimsorted : limited.Pairwise tsLE := List.Pairwise.sublist hsub hsorted
  have hval : ∀ p ∈ limited, p.value = p.originalValue := fun p hp =>
    aqLoop_value_eq fmt list p (hperm.mem_iff.mp (hsub.subset hp))
  have hbounds : ∀ p ∈ limited, md.min ≤ p.originalValue ∧ p.originalValue ≤ md.max := by
    intro p hp
    have hmem : p.originalValue ∈ limited.map (·.value) := by
      rw [← hval p hp]
      exact List.mem_map_of_mem _ hp
    rw [← hm]
    exact ⟨calculateMetadata_min_le _ _ _ hmem, calculateMetadata_le_max _ _ _ hmem⟩
  have hvv : limited.map (·.value) = limited.map (·.originalValue) :=
    List.map_congr_left hval
  have hcomp_pair :
      (limited.map
          (fun dp => { dp with value := (dp.originalValue - md.min) / (md.max - md.min) })).map
          (fun p : DataPoint => (p.timestamp, p.originalValue)) =
        limited.map (fun p => (p.timestamp, p.originalValue)) := by
    rw [List.map_map]
    exact List.map_congr_left (fun p _ => rfl)
  have hcomp_orig :
      (limited.map
          (fun dp => { dp with value := (dp.originalValue - md.min) / (md.max - md.min) })).map
          (·.originalValue) =
        limited.map (·.originalValue) := by
    rw [List.map_map]
    exact List.map_congr_left (fun p _ => rfl)
  have hdrop : 100 < (aqLoop fmt list).length →
      limited = (sortByTimestamp (aqLoop fmt list)).drop ((aqLoop fmt list).length - 100) := by
    intro hcap
    rw [← hl, limitDataPoints,
      if_pos (show 100 < (sortByTimestamp (aqLoop fmt list)).length by rw [hslen]; exact hcap),
      hslen]
  rw [hts, hl]
  dsimp only
  split_ifs with hcond
  · refine ⟨List.pairwise_map.mpr hlimsorted, ?_, ?_, ?_, ?_, ?_, ?_, ?_⟩
    · rw [List.length_map]
      exact hlimlen
    · intro hcap
      rw [hcomp_pair, hdrop hcap]
    · intro hfalse
      exact absurd hcond (by simp [hfalse])
    · rw [← hm, calculateMetadata_count, List.length_map, List.length_map]
    · intro p hp
      obtain ⟨q, hq, rfl⟩ := List.mem_map.mp hp
      exact hbounds q hq
    · rw [hcomp_orig]
      simp only [List.length_map]
      rw [← hm, calculateMetadata_mean, hvv]
      simp only [List.length_map]
    · intro h0
      exact absurd hcond.2.1 (by rw [hlimlen, h0]; simp)
  · refine ⟨hlimsorted, hlimlen, ?_, fun _ => rfl, ?_, hbounds, ?_, ?_⟩
    · intro hcap
      rw [hdrop hcap]
    · rw [← hm, calculateMetadata_count, List.length_map]
    · rw [← hm, calculateMetadata_mean, hvv]
      simp only [List.length_map]
    · intro h0
      have hL : aqLoop fmt list = [] := List.length_eq_zero.mp h0
      have hlim0 : limited = [] := by rw [← hl, hL]; rfl
      rw [← hm, hlim0]
      rfl

/-- Witness for C7 at a concrete payload: with normalization off the
series' data points are exactly the limited sorted extraction. -/
theorem C7_witness :
    (normalizeAirQuality fmt0 (some exAQ) ⟨false⟩).dataPoints =
      limitDataPoints (sortByTimestamp (aqLoop fmt0 exAQ)) 100 :=
  ((C7_canonical_invariants fmt0 ⟨false⟩).1 exAQ).2.2.2.1 rfl

/-- **C8**: when the config requests normalization, the canonicalized
series keeps the `originalValue` sequence untouched; if `metadata.min <
metadata.max` every point's `value` is `(originalValue − min)/(max − min)`
and lies in `[0, 1]`; if `metadata.max = metadata.min` (zero range) values
are left unnormalized, so `value = originalValue` for every point — no
division by zero occurs. -/
theorem C8_normalization (fmt : ℚ → String) (cfg : TransformConfig)
    (list : List (Option AQItem)) (hn : cfg.normalize = true) :
    (normalizeAirQuality fmt (some list) cfg).dataPoints.map (·.originalValue) =
      (limitDataPoints (sortByTimestamp (aqLoop fmt list)) 100).map (·.originalValue) ∧
    ((normalizeAirQuality fmt (some list) cfg).metadata.min <
        (normalizeAirQuality fmt (some list) cfg).metadata.max →
      ∀ p ∈ (normalizeAirQuality fmt (some list) cfg).dataPoints,
        p.value =
            (p.originalValue - (normalizeAirQuality fmt (some list) cfg).metadata.min) /
              ((normalizeAirQuality fmt (some list) cfg).metadata.max -
                (normalizeAirQuality fmt (some list) cfg).metadata.min) ∧
          0 ≤ p.value ∧ p.value ≤ 1) ∧
    ((normalizeAirQuality fmt (some list) cfg).metadata.max =
        (normalizeAirQuality fmt (some list) cfg).metadata.min →
      ∀ p ∈ (normalizeAirQuality fmt (some list) cfg).dataPoints,
        p.value = p.originalValue) := by
  obtain ⟨limited, hl⟩ : ∃ l, limitDataPoints (sortByTimestamp (aqLoop fmt list)) 100 = l :=
    ⟨_, rfl⟩
  obtain ⟨md, hm⟩ : ∃ m, calculateMetadata (limited.map (·.value)) "AQI" = m := ⟨_, rfl⟩
  have hts := normalizeAirQuality_some fmt list cfg limited md hl.symm hm.symm
  have hperm : (sortByTimestamp (aqLoop fmt list)).Perm (aqLoop fmt list) :=
    List.perm_insertionSort tsLE _
  have hsub : limited.Sublist (sortByTimestamp (aqLoop fmt list)) :=
    hl ▸ limitDataPoints_sublist _ _
  have hval : ∀ p ∈ limited, p.value = p.originalValue := fun p hp =>
    aqLoop_value_eq fmt list p (hperm.mem_iff.mp (hsub.subset hp))
  have hbounds : ∀ p ∈ limited, md.min ≤ p.originalValue ∧ p.originalValue ≤ md.max := by
    intro p hp
    have hmem : p.originalValue ∈ limited.map (·.value) := by
      rw [← hval p hp]
      exact List.mem_map_of_mem _ hp
    rw [← hm]
    exact ⟨calculateMetadata_min_le _ _ _ hmem, calculateMetadata_le_max _ _ _ hmem⟩
  rw [hts, hl]
  dsimp only
  split_ifs with hcond
  · refine ⟨?_, ?_, ?_⟩
    · rw [List.map_map]
      exact List.map_congr_left (fun p _ => rfl)
    · intro _ p hp
      obtain ⟨q, hq, rfl⟩ := List.mem_map.mp hp
      have hb := hbounds q hq
      have hrange : 0 < md.max - md.min := hcond.2.2
      refine ⟨rfl, div_nonneg (by linarith [hb.1]) (le_of_lt hrange), ?_⟩
      rw [div_le_one hrange]
      linarith [hb.2]
    · intro heq p _
      exact absurd hcond.2.2 (by rw [heq]; simp)
  · refine ⟨rfl, ?_, fun _ p hp => hval p hp⟩
    intro hlt p _
    exfalso
    have hlim_pos : 0 < limited.length := by
      cases hL : limited with
      | nil =>
        have hmz : md = ⟨"AQI", 0, 0, 0, 0⟩ := by rw [← hm, hL]; rfl
        rw [hmz] at hlt
        exact absurd hlt (lt_irrefl 0)
      | cons a rest => simp
    exact hcond ⟨hn, hlim_pos, by linarith [hlt]⟩

/-- Witness for C8 at a concrete payload with a nonzero range: the point
at timestamp 1000 (originalValue 5, range [3, 5]) gets value 1. -/
theorem C8_witness :
    (⟨1000, 1, 5, ""⟩ : DataPoint).value =
        ((⟨1000, 1, 5, ""⟩ : DataPoint).originalValue -
            (normalizeAirQuality fmt0 (some exAQ) ⟨true⟩).metadata.min) /
          ((normalizeAirQuality fmt0 (some exAQ) ⟨true⟩).metadata.max -
            (normalizeAirQuality fmt0 (some exAQ) ⟨true⟩).metadata.min) ∧
      0 ≤ (⟨1000, 1, 5, ""⟩ : DataPoint).value ∧ (⟨1000, 1, 5, ""⟩ : DataPoint).value ≤ 1 := by
  have hev : normalizeAirQuality fmt0 (some exAQ) ⟨true⟩ =
      ⟨"Air Quality", [⟨1000, 1, 5, ""⟩, ⟨2000, 0, 3, ""⟩], ⟨"AQI", 3, 5, 4, 2⟩⟩ := by
    norm_num [normalizeAirQuality, aqLoop, sortByTimestamp, List.insertionSort,
      List.orderedInsert, tsLE, limitDataPoints, calculateMetadata, fmt0, exAQ]
  exact (C8_normalization fmt0 ⟨true⟩ exAQ rfl).2.1
    (by rw [hev]; norm_num) ⟨1000, 1, 5, ""⟩ (by rw [hev]; simp)

end DataWeaver
